import Mathlib

/-!
Verification development for the documentation validation pipeline
(`scripts/validate-docs.py`).

The Python functions are shallowly embedded as executable Lean definitions.
Conventions used throughout:

* Parsed YAML front-matter values are modelled by `PyVal` (scalars, lists,
  and the null value); Python truthiness is `PyVal.truthy`.
* A front-matter mapping is an association list with unique keys, in
  insertion order, mirroring a Python `dict`.
* External collaborators that the script only calls into — `yaml.safe_load`,
  `hashlib.sha256`, `Simhash(...).value`, `rapidfuzz.fuzz.ratio` — are
  threaded through as function parameters; the module-level availability
  globals `SIMHASH_AVAILABLE` / `RAPIDFUZZ_AVAILABLE` become Bool parameters.
* Strings are processed over their character lists.  Character classes of
  the regexes used by the script (`[a-z0-9\s]`, `[A-Z]`, `\d`) are modelled
  over ASCII, matching the ASCII inputs the script is designed for.
* Each distinct message template of the script becomes one constructor of
  the `Msg` type, carrying the data that the template interpolates.
-/

/-! ## Embedded definitions -/

/-- A parsed YAML value as produced by `yaml.safe_load` for a front-matter
field: string, boolean, integer, sequence of strings (the sequence shape the
corpus uses for `tags`), or null.  `none` also stands for the Python `None`
that `dict.get` returns for an absent key. -/
inductive PyVal where
  | str (s : String)
  | bool (b : Bool)
  | int (n : Int)
  | list (xs : List String)
  | none
deriving DecidableEq, Repr

/-- Python truthiness of a `PyVal` (`if value:`). -/
def PyVal.truthy : PyVal → Bool
  | .str s => !(s == "")
  | .bool b => b
  | .int n => !(n == 0)
  | .list xs => !xs.isEmpty
  | .none => false

/-- Python `str(value)` for the values that reach `str()` in the script.
List rendering is a placeholder: no claim evaluates `str` on a sequence. -/
def PyVal.pyStr : PyVal → String
  | .str s => s
  | .bool true => "True"
  | .bool false => "False"
  | .int n => toString n
  | .list _ => "[...]"
  | .none => "None"

/-- Association-list lookup, first match, mirroring a Python dict with
unique keys. -/
def fmLookup : List (String × PyVal) → String → Option PyVal
  | [], _ => Option.none
  | (k2, v) :: rest, k => if k2 = k then some v else fmLookup rest k

/-- `front_matter.get(key)`: the stored value, or Python `None` when the key
is absent. -/
def pyGet (fm : List (String × PyVal)) (k : String) : PyVal :=
  (fmLookup fm k).getD PyVal.none

/-- `key in front_matter.keys()`. -/
def hasKey (fm : List (String × PyVal)) (k : String) : Bool :=
  (fmLookup fm k).isSome

/-- The characters matched by `\s` on the ASCII inputs the script handles. -/
def isPySpace (c : Char) : Bool :=
  c == ' ' || c == '\t' || c == '\n' || c == '\r' || c == '\x0b' || c == '\x0c'

/-- `[a-z]`. -/
def isLowerAZ (c : Char) : Bool := decide ('a' ≤ c) && decide (c ≤ 'z')

/-- `[A-Z]`. -/
def isUpperAZ (c : Char) : Bool := decide ('A' ≤ c) && decide (c ≤ 'Z')

/-- `[0-9]` (the `\d` class on ASCII input). -/
def isDigit09 (c : Char) : Bool := decide ('0' ≤ c) && decide (c ≤ '9')

/-- Does the character list start with the given pattern? -/
def listStartsWith : List Char → List Char → Bool
  | _, [] => true
  | [], _ :: _ => false
  | a :: as, b :: bs => (a == b) && listStartsWith as bs

/-- Does the character list end with the given pattern? -/
def listEndsWith (s pat : List Char) : Bool :=
  listStartsWith s.reverse pat.reverse

/-- Python `pat in s`: non-empty-position substring containment. -/
def containsSubL : List Char → List Char → Bool
  | [], pat => pat.isEmpty
  | c :: rest, pat => listStartsWith (c :: rest) pat || containsSubL rest pat

/-- Python `s.split(sep, maxsplit)` for a non-empty separator, by fuel on the
remaining length (the fuel is never exhausted when it starts at
`length + 1`).  `acc` holds the current piece reversed. -/
def splitFuel (sep : List Char) : Nat → Nat → List Char → List Char → List (List Char)
  | _, 0, acc, rest => [acc.reverse ++ rest]
  | 0, _, acc, rest => [acc.reverse ++ rest]
  | fuel + 1, maxs + 1, acc, rest =>
    match rest with
    | [] => [acc.reverse]
    | c :: rs =>
      if listStartsWith rest sep then
        acc.reverse :: splitFuel sep fuel maxs [] (rest.drop sep.length)
      else
        splitFuel sep fuel (maxs + 1) (c :: acc) rs

/-- Python `s.split(sep, maxsplit)` on strings. -/
def pySplitMax (s sep : String) (maxs : Nat) : List String :=
  (splitFuel sep.data (s.data.length + 1) maxs [] s.data).map String.mk

/-- Python `s.split(sep)` (no maxsplit bound). -/
def pySplit (s sep : String) : List String :=
  pySplitMax s sep (s.data.length + 1)

/-- Split a character list into its maximal whitespace-free words. -/
def splitWords : List Char → List Char → List (List Char)
  | acc, [] => if acc.isEmpty then [] else [acc.reverse]
  | acc, c :: rest =>
    if isPySpace c then
      if acc.isEmpty then splitWords [] rest else acc.reverse :: splitWords [] rest
    else
      splitWords (c :: acc) rest

/-- Join words with single spaces.  `joinSpace (splitWords [] cs)` is
`re.sub(r"\s+", " ", cs).strip()`. -/
def joinSpace : List (List Char) → List Char
  | [] => []
  | [w] => w
  | w :: ws => w ++ ' ' :: joinSpace ws

/-- One discovered document (`DocumentInfo` in the script). -/
structure DocumentInfo where
  path : String
  front_matter : List (String × PyVal)
  content : String
  content_hash : String
  simhash : Option Nat
deriving DecidableEq, Repr

/-- One raw file yielded by `docs_dir.rglob("*.md")`, identified by its path
relative to the documentation root, in traversal order. -/
structure RawFile where
  rel_path : String
  content : String
deriving DecidableEq, Repr

/-- The message of a Finding.  Each constructor corresponds to one distinct
f-string template of the script and records the data interpolated into it;
distinct templates render to distinct strings. -/
inductive Msg where
  | missingRequired (fields : List String)
  | invalidDocType (v : PyVal) (valid : List String)
  | invalidStatus (v : PyVal) (valid : List String)
  | invalidDocId (v : String)
  | invalidDateFormat (field : String) (v : String)
  | invalidDateValue (field : String) (v : String)
  | canonicalNotBool (v : PyVal)
  | tagsNotList (v : PyVal)
  | multipleCanonical (concept : String) (paths : List String)
  | nearDuplicate (inboxPath : String) (corpusPath : String) (titleSim : Nat) (contentSim : Int)
  | missingDeps
deriving DecidableEq, Repr

/-- `ValidationError` of the script: a Finding with error or warning
severity. -/
structure ValidationError where
  path : String
  message : Msg
  is_warning : Bool
deriving DecidableEq, Repr

/-- `VALID_DOC_TYPES` (it is a set in the script; listed here in the order
`sorted()` would produce, which is how it is rendered in messages). -/
def VALID_DOC_TYPES : List String :=
  ["adr", "finding", "glossary", "guide", "plan", "reference", "rfc", "spec"]

/-- `VALID_STATUSES`, sorted. -/
def VALID_STATUSES : List String :=
  ["active", "archived", "draft", "rejected", "superseded"]

/-- `REQUIRED_FIELDS`, sorted, so that filtering it preserves the order that
`sorted(missing_fields)` produces. -/
def REQUIRED_FIELDS : List String :=
  ["canonical", "created", "doc_id", "doc_type", "status", "summary", "tags", "title"]

/-- `INBOX_REQUIRED_FIELDS`, sorted. -/
def INBOX_REQUIRED_FIELDS : List String :=
  ["created", "doc_type", "status", "title"]

/-- `DOC_ID_PATTERN.match`: the anchored regex `[A-Z]+-\d{4}-\d{5}`. -/
def DOC_ID_PATTERN_match (s : String) : Bool :=
  let cs := s.data
  let up := cs.takeWhile isUpperAZ
  !up.isEmpty &&
    (match cs.drop up.length with
     | '-' :: y1 :: y2 :: y3 :: y4 :: '-' :: n1 :: n2 :: n3 :: n4 :: n5 :: [] =>
       isDigit09 y1 && isDigit09 y2 && isDigit09 y3 && isDigit09 y4 &&
       isDigit09 n1 && isDigit09 n2 && isDigit09 n3 && isDigit09 n4 && isDigit09 n5
     | _ => false)

/-- `DATE_PATTERN.match`: the anchored regex `\d{4}-\d{2}-\d{2}`. -/
def DATE_PATTERN_match (s : String) : Bool :=
  match s.data with
  | [y1, y2, y3, y4, h1, m1, m2, h2, d1, d2] =>
    isDigit09 y1 && isDigit09 y2 && isDigit09 y3 && isDigit09 y4 && (h1 == '-') &&
    isDigit09 m1 && isDigit09 m2 && (h2 == '-') && isDigit09 d1 && isDigit09 d2
  | _ => false

/-- Numeric value of a digit string. -/
def digitsVal (cs : List Char) : Nat :=
  cs.foldl (fun n c => n * 10 + (c.toNat - 48)) 0

/-- Gregorian leap-year rule, as `datetime` uses. -/
def isLeapYear (y : Nat) : Bool :=
  y % 4 == 0 && (y % 100 != 0 || y % 400 == 0)

/-- Days in a month, as `datetime` uses. -/
def daysInMonth (y m : Nat) : Nat :=
  if m == 2 then (if isLeapYear y then 29 else 28)
  else if m == 4 || m == 6 || m == 9 || m == 11 then 30
  else 31

/-- Success of `datetime.strptime(s, "%Y-%m-%d")` on a string already known
to match `DATE_PATTERN` (4-2-2 digit groups): the year is at least 1 and the
month/day pair is a real calendar date. -/
def strptimeOk (s : String) : Bool :=
  match s.data with
  | [y1, y2, y3, y4, _, m1, m2, _, d1, d2] =>
    let y := digitsVal [y1, y2, y3, y4]
    let m := digitsVal [m1, m2]
    let d := digitsVal [d1, d2]
    decide (1 ≤ y) && decide (1 ≤ m) && decide (m ≤ 12) &&
    decide (1 ≤ d) && decide (d ≤ daysInMonth y m)
  | _ => false

/-- Is the value a string that belongs to the given vocabulary?  This is
`value in SET_OF_STRINGS` for a `PyVal`: a non-string value is never a
member. -/
def pyValMemStr (v : PyVal) (l : List String) : Bool :=
  match v with
  | .str s => l.contains s
  | _ => false

/-- Required-fields section of `validate_front_matter_fields`: one error
listing the missing names (alphabetically, since the `REQUIRED_FIELDS`
lists above are sorted). -/
def missingFieldErrors (p : String) (fm : List (String × PyVal)) (isInbox : Bool) :
    List ValidationError :=
  let req := if isInbox then INBOX_REQUIRED_FIELDS else REQUIRED_FIELDS
  let missing := req.filter (fun k => !(hasKey fm k))
  if missing.isEmpty then [] else [⟨p, .missingRequired missing, false⟩]

/-- `doc_type` vocabulary section of `validate_front_matter_fields`. -/
def docTypeErrors (p : String) (fm : List (String × PyVal)) : List ValidationError :=
  let v := pyGet fm "doc_type"
  if v.truthy && !(pyValMemStr v VALID_DOC_TYPES) then
    [⟨p, .invalidDocType v VALID_DOC_TYPES, false⟩]
  else []

/-- `status` vocabulary section of `validate_front_matter_fields`. -/
def statusErrors (p : String) (fm : List (String × PyVal)) : List ValidationError :=
  let v := pyGet fm "status"
  if v.truthy && !(pyValMemStr v VALID_STATUSES) then
    [⟨p, .invalidStatus v VALID_STATUSES, false⟩]
  else []

/-- `doc_id` format section of `validate_front_matter_fields` (skipped for
inbox documents). -/
def docIdErrors (p : String) (fm : List (String × PyVal)) (isInbox : Bool) :
    List ValidationError :=
  if isInbox then []
  else
    let v := pyGet fm "doc_id"
    if v.truthy && !(DOC_ID_PATTERN_match v.pyStr) then
      [⟨p, .invalidDocId v.pyStr, false⟩]
    else []

/-- Date section of `validate_front_matter_fields` for one of the fields
`created` / `updated`: the lexical check, and — only when it passes — the
calendar check.  A truthy value is first rendered with `str()`. -/
def dateFieldErrors (p : String) (fm : List (String × PyVal)) (field : String) :
    List ValidationError :=
  let v := pyGet fm field
  if v.truthy then
    let s := v.pyStr
    if !(DATE_PATTERN_match s) then [⟨p, .invalidDateFormat field s, false⟩]
    else if !(strptimeOk s) then [⟨p, .invalidDateValue field s, false⟩]
    else []
  else []

/-- `canonical` boolean-type section of `validate_front_matter_fields`
(`canonical is not None and not isinstance(canonical, bool)`). -/
def canonicalTypeErrors (p : String) (fm : List (String × PyVal)) : List ValidationError :=
  match pyGet fm "canonical" with
  | .none => []
  | .bool _ => []
  | v => [⟨p, .canonicalNotBool v, false⟩]

/-- `tags` list-type section of `validate_front_matter_fields`
(`tags is not None and not isinstance(tags, list)`). -/
def tagsTypeErrors (p : String) (fm : List (String × PyVal)) : List ValidationError :=
  match pyGet fm "tags" with
  | .none => []
  | .list _ => []
  | v => [⟨p, .tagsNotList v, false⟩]

/-- `validate_front_matter_fields(doc_path, front_matter, is_inbox)`: all
sections, appended in the order the script appends them. -/
def validate_front_matter_fields (p : String) (fm : List (String × PyVal))
    (isInbox : Bool) : List ValidationError :=
  missingFieldErrors p fm isInbox ++ docTypeErrors p fm ++ statusErrors p fm ++
  docIdErrors p fm isInbox ++ dateFieldErrors p fm "created" ++
  dateFieldErrors p fm "updated" ++ canonicalTypeErrors p fm ++ tagsTypeErrors p fm

/-- `doc.front_matter.get("title", "")`, for front matter whose title — when
present — is a string (a non-string title would raise in the script before
any Finding is produced; well-typedness hypotheses in the theorems below
restrict to the non-raising case). -/
def titleStr (fm : List (String × PyVal)) : String :=
  match fmLookup fm "title" with
  | some (.str s) => s
  | _ => ""

/-- The title field is absent or holds a string (the script would raise
otherwise; theorems about the title-reading passes carry this as a
hypothesis). -/
def titleWellTypedB (fm : List (String × PyVal)) : Bool :=
  match fmLookup fm "title" with
  | Option.none => true
  | some (.str _) => true
  | some _ => false

/-- Title normalization of `check_canonical_uniqueness`: lower-case, delete
every character outside `[a-z0-9\s]`, collapse whitespace runs to single
spaces, trim. -/
def normalize_title (t : String) : String :=
  let lowered := t.data.map Char.toLower
  let kept := lowered.filter (fun c => isLowerAZ c || isDigit09 c || isPySpace c)
  String.mk (joinSpace (splitWords [] kept))

/-- Does the document enter the canonical-uniqueness check?
(`if not doc.front_matter.get("canonical"): continue` — Python truthiness.) -/
def canonB (d : DocumentInfo) : Bool :=
  (pyGet d.front_matter "canonical").truthy

/-- The normalized concept key of a document. -/
def normKey (d : DocumentInfo) : String :=
  normalize_title (titleStr d.front_matter)

/-- Append a path under a concept key in the insertion-ordered grouping
dict (`canonical_docs`): a fresh key is appended at the end, an existing
key has the path appended to its list. -/
def insertGroup : List (String × List String) → String → String → List (String × List String)
  | [], k, p => [(k, [p])]
  | (k2, ps) :: rest, k, p =>
    if k2 = k then (k2, ps ++ [p]) :: rest else (k2, ps) :: insertGroup rest k p

/-- The grouping dict built by the first loop of
`check_canonical_uniqueness`. -/
def canonicalGroups (docs : List DocumentInfo) : List (String × List String) :=
  docs.foldl (fun m d => if canonB d then insertGroup m (normKey d) d.path else m) []

/-- The reporting loop body of `check_canonical_uniqueness`: a group of two
or more colliding paths yields one error, attributed to the first path and
listing them all. -/
def groupError (g : String × List String) : Option ValidationError :=
  if 1 < g.2.length then some ⟨g.2.headD "", .multipleCanonical g.1 g.2, false⟩
  else Option.none

/-- `check_canonical_uniqueness(documents)`: one error per concept with at
least two canonical documents, attributed to the first colliding path and
listing every colliding path. -/
def check_canonical_uniqueness (docs : List DocumentInfo) : List ValidationError :=
  (canonicalGroups docs).filterMap groupError

/-- `"/_inbox/" in str(doc.path)`. -/
def isInboxDoc (d : DocumentInfo) : Bool :=
  containsSubL d.path.data "/_inbox/".data

/-- Lower-cased title comparison input (`title.lower()`), ASCII. -/
def lowerStr (s : String) : String :=
  String.mk (s.data.map Char.toLower)

/-- Title similarity of one inbox/corpus pair: `fuzz.ratio` on the
lower-cased titles when rapidfuzz is available and both titles are
non-empty, otherwise 0.  `ratioFn` embeds `rapidfuzz.fuzz.ratio`. -/
def title_sim_of (RAPIDFUZZ_AVAILABLE : Bool) (ratioFn : String → String → Nat)
    (d1 d2 : DocumentInfo) : Nat :=
  let t1 := titleStr d1.front_matter
  let t2 := titleStr d2.front_matter
  if RAPIDFUZZ_AVAILABLE && !(t1 == "") && !(t2 == "") then
    ratioFn (lowerStr t1) (lowerStr t2)
  else 0

/-- Population count, by fuel (the fuel `n` dominates the number of binary
digits of `n`). -/
def popCountFuel : Nat → Nat → Nat
  | 0, _ => 0
  | fuel + 1, n => if n == 0 then 0 else n % 2 + popCountFuel fuel (n / 2)

/-- `bin(x).count("1")`. -/
def popCount (n : Nat) : Nat := popCountFuel n n

/-- Hamming distance of one inbox/corpus pair: popcount of the XOR of the
fingerprints when simhash is available and both are present, otherwise the
sentinel 999. -/
def hamming_of (SIMHASH_AVAILABLE : Bool) (d1 d2 : DocumentInfo) : Nat :=
  match SIMHASH_AVAILABLE, d1.simhash, d2.simhash with
  | true, some a, some b => popCount (a ^^^ b)
  | _, _, _ => 999

/-- Content-similarity percentage reported in the warning message:
`max(0, 100 - hamming * 100 // 64)` when computed, otherwise the initial 0. -/
def content_sim_of (SIMHASH_AVAILABLE : Bool) (d1 d2 : DocumentInfo) : Int :=
  match SIMHASH_AVAILABLE, d1.simhash, d2.simhash with
  | true, some a, some b => max 0 (100 - Int.ofNat (popCount (a ^^^ b) * 100 / 64))
  | _, _, _ => 0

/-- Does the corpus document qualify as a near-duplicate of the inbox
document (`title_sim >= title_similarity or hamming_dist <= hamming_threshold`)? -/
def nearDupQualifies (SIMHASH_AVAILABLE RAPIDFUZZ_AVAILABLE : Bool)
    (ratioFn : String → String → Nat) (ht ts : Nat) (i c : DocumentInfo) : Bool :=
  decide (ts ≤ title_sim_of RAPIDFUZZ_AVAILABLE ratioFn i c) ||
  decide (hamming_of SIMHASH_AVAILABLE i c ≤ ht)

/-- The warning Finding emitted for a qualifying pair. -/
def nearDupWarning (SIMHASH_AVAILABLE RAPIDFUZZ_AVAILABLE : Bool)
    (ratioFn : String → String → Nat) (i c : DocumentInfo) : ValidationError :=
  ⟨i.path,
   .nearDuplicate i.path c.path (title_sim_of RAPIDFUZZ_AVAILABLE ratioFn i c)
     (content_sim_of SIMHASH_AVAILABLE i c),
   true⟩

/-- Inner corpus loop of `detect_near_duplicates` for one inbox document:
emit a warning on the first qualifying corpus document and `break`. -/
def scanCorpus (SIMHASH_AVAILABLE RAPIDFUZZ_AVAILABLE : Bool)
    (ratioFn : String → String → Nat) (ht ts : Nat) (i : DocumentInfo) :
    List DocumentInfo → List ValidationError
  | [] => []
  | c :: rest =>
    if nearDupQualifies SIMHASH_AVAILABLE RAPIDFUZZ_AVAILABLE ratioFn ht ts i c then
      [nearDupWarning SIMHASH_AVAILABLE RAPIDFUZZ_AVAILABLE ratioFn i c]
    else scanCorpus SIMHASH_AVAILABLE RAPIDFUZZ_AVAILABLE ratioFn ht ts i rest

/-- The process-level skip notice emitted when both similarity capabilities
are missing. -/
def missingDepsWarning : ValidationError :=
  ⟨"(system)", .missingDeps, true⟩

/-- `detect_near_duplicates(documents, hamming_threshold, title_similarity)`. -/
def detect_near_duplicates (SIMHASH_AVAILABLE RAPIDFUZZ_AVAILABLE : Bool)
    (ratioFn : String → String → Nat) (docs : List DocumentInfo) (ht ts : Nat) :
    List ValidationError :=
  if !SIMHASH_AVAILABLE && !RAPIDFUZZ_AVAILABLE then [missingDepsWarning]
  else
    let inbox := docs.filter isInboxDoc
    let corpus := docs.filter (fun d => !isInboxDoc d)
    inbox.flatMap (fun i => scanCorpus SIMHASH_AVAILABLE RAPIDFUZZ_AVAILABLE ratioFn ht ts i corpus)

/-- Delimiter eligibility of `extract_front_matter`: the content starts with
`---` and splitting on `---` (maxsplit 2) yields at least three parts. -/
def hasFrontMatterDelims (content : String) : Bool :=
  listStartsWith content.data "---".data && decide (3 ≤ (pySplitMax content "---" 2).length)

/-- `extract_front_matter(file_path)` on the file's content.  The YAML
parser (`yaml.safe_load`) is the `parse` parameter; `Option.none` covers
both a null parse result and a caught parse failure — either way the
collector drops the file. -/
def extract_front_matter (parse : String → Option (List (String × PyVal)))
    (content : String) : Option (List (String × PyVal)) × String :=
  if !(listStartsWith content.data "---".data) then (Option.none, content)
  else
    let parts := pySplitMax content "---" 2
    if parts.length < 3 then (Option.none, content)
    else (parse (parts.getD 1 ""), content)

/-- Characters the simhash text-cleaning step replaces by spaces
(the regex class with hash, star, backtick, brackets, parens). -/
def stripMdChar (c : Char) : Char :=
  if c == '#' || c == '*' || c == Char.ofNat 96 || c == '[' || c == ']' ||
     c == '(' || c == ')' then ' '
  else c

/-- The cleaned body text over which the fingerprint is computed:
`content.split("---", 2)[-1]` when a delimiter occurs, markup characters
replaced by spaces, whitespace collapsed and trimmed. -/
def simhashText (content : String) : String :=
  let text :=
    if containsSubL content.data "---".data then
      (pySplitMax content "---" 2).getLastD content
    else content
  String.mk (joinSpace (splitWords [] (text.data.map stripMdChar)))

/-- The optional fingerprint of a collected document (`simhashFn` embeds
`Simhash(text).value`). -/
def simhashOf (SIMHASH_AVAILABLE : Bool) (simhashFn : String → Nat)
    (content : String) : Option Nat :=
  if SIMHASH_AVAILABLE then
    let text := simhashText content
    if text == "" then Option.none else some (simhashFn text)
  else Option.none

/-- Collection decision for one traversed file: keep `.md` files whose
relative path avoids every exclusion pattern and whose content has a
parseable front-matter block.  The document path is the traversal root
joined with the relative path (`str(md_file)`); `sha256Fn` embeds
`hashlib.sha256(...).hexdigest()`. -/
def collectOne (parse : String → Option (List (String × PyVal)))
    (sha256Fn : String → String) (SIMHASH_AVAILABLE : Bool)
    (simhashFn : String → Nat) (docs_dir : String) (excl : List String)
    (f : RawFile) : Option DocumentInfo :=
  if !(listEndsWith f.rel_path.data ".md".data) then Option.none
  else if excl.any (fun pat => containsSubL f.rel_path.data pat.data) then Option.none
  else
    match extract_front_matter parse f.content with
    | (Option.none, _) => Option.none
    | (some fm, content) =>
      some { path := docs_dir ++ "/" ++ f.rel_path
             front_matter := fm
             content := content
             content_hash := sha256Fn content
             simhash := simhashOf SIMHASH_AVAILABLE simhashFn content }

/-- `collect_documents(docs_dir, exclude_patterns)`, over the files in
traversal (`rglob`) order. -/
def collect_documents (parse : String → Option (List (String × PyVal)))
    (sha256Fn : String → String) (SIMHASH_AVAILABLE : Bool)
    (simhashFn : String → Nat) (docs_dir : String) (files : List RawFile)
    (excl : List String) : List DocumentInfo :=
  files.filterMap (collectOne parse sha256Fn SIMHASH_AVAILABLE simhashFn docs_dir excl)

/-- Update one key of an insertion-ordered string-keyed dict
(`doc_entry[key] = value`). -/
def dictSet : List (String × PyVal) → String → PyVal → List (String × PyVal)
  | [], k, v => [(k, v)]
  | (k2, w) :: rest, k, v =>
    if k2 = k then (k2, v) :: rest else (k2, w) :: dictSet rest k v

/-- Increment one key of an insertion-ordered counting dict
(`registry[...][key] = registry[...].get(key, 0) + 1`). -/
def bumpCount : List (PyVal × Nat) → PyVal → List (PyVal × Nat)
  | [], k => [(k, 1)]
  | (k2, n) :: rest, k =>
    if k2 = k then (k2, n + 1) :: rest else (k2, n) :: bumpCount rest k

/-- The `by_type` / `by_status` counting loop: count the truthy values of
the given field over the documents, in insertion order. -/
def countBy (field : String) (docs : List DocumentInfo) : List (PyVal × Nat) :=
  docs.foldl (fun m d =>
    let v := pyGet d.front_matter field
    if v.truthy then bumpCount m v else m) []

/-- The per-document registry record (`doc_entry`): path and content hash,
then every front-matter field verbatim, then the fingerprint as a decimal
string when present. -/
def docEntry (d : DocumentInfo) : List (String × PyVal) :=
  let base := [("path", PyVal.str d.path), ("sha256", PyVal.str d.content_hash)]
  let withFm := d.front_matter.foldl (fun m kv => dictSet m kv.1 kv.2) base
  match d.simhash with
  | some v => dictSet withFm "simhash" (PyVal.str (toString v))
  | Option.none => withFm

/-- The registry object written by `generate_registry`. -/
structure Registry where
  generated_at : String
  total_docs : Nat
  by_type : List (PyVal × Nat)
  by_status : List (PyVal × Nat)
  docs : List (List (String × PyVal))
deriving DecidableEq, Repr

/-- `generate_registry(documents, output_path)`: the JSON object it writes,
with the generation timestamp (`datetime.now(timezone.utc)`) supplied as
the `now` parameter. -/
def generate_registry (documents : List DocumentInfo) (now : String) : Registry :=
  { generated_at := now
    total_docs := documents.length
    by_type := countBy "doc_type" documents
    by_status := countBy "status" documents
    docs := documents.map docEntry }

/-- Outcome of one run of `main`: the collected documents, the merged error
and warning streams, whether the registry was (re)written, the registry
file on disk after the run, and the exit code. -/
structure RunOutcome where
  documents : List DocumentInfo
  all_errors : List ValidationError
  all_warnings : List ValidationError
  registry_written : Bool
  registry_on_disk : Option Registry
  exit_code : Nat
deriving Repr

/-- The per-document validation loop of `main()`: each document is
validated with the inbox flag derived from its path, and the resulting
Findings are concatenated in document order. -/
def runFmFindings (documents : List DocumentInfo) : List ValidationError :=
  documents.flatMap (fun d =>
    validate_front_matter_fields d.path d.front_matter (isInboxDoc d))

/-- `all_errors` as accumulated by `main()`: the error-severity Findings of
the per-document validation and of the canonical-uniqueness check. -/
def runAllErrors (documents : List DocumentInfo) : List ValidationError :=
  (runFmFindings documents).filter (fun e => !e.is_warning) ++
  (check_canonical_uniqueness documents).filter (fun e => !e.is_warning)

/-- `all_warnings` as accumulated by `main()`: warning-severity Findings of
the two checks above plus everything the near-duplicate detector (called
with its default thresholds) produces. -/
def runAllWarnings (SIMHASH_AVAILABLE RAPIDFUZZ_AVAILABLE : Bool)
    (ratioFn : String → String → Nat) (documents : List DocumentInfo) :
    List ValidationError :=
  (runFmFindings documents).filter (fun e => e.is_warning) ++
  (check_canonical_uniqueness documents).filter (fun e => e.is_warning) ++
  detect_near_duplicates SIMHASH_AVAILABLE RAPIDFUZZ_AVAILABLE ratioFn documents 8 80

/-- `main()`: collect, validate every document, check canonical uniqueness,
detect near-duplicates, and write the registry unless `--pre-commit` was
given or an error-severity Finding exists.  `disk0` is the pre-existing
registry file (if any); it is returned unchanged when no write occurs. -/
def mainRun (parse : String → Option (List (String × PyVal)))
    (sha256Fn : String → String) (simhashFn : String → Nat)
    (ratioFn : String → String → Nat)
    (SIMHASH_AVAILABLE RAPIDFUZZ_AVAILABLE : Bool) (docs_dir : String)
    (files : List RawFile) (preCommit : Bool) (now : String)
    (disk0 : Option Registry) : RunOutcome :=
  let documents := collect_documents parse sha256Fn SIMHASH_AVAILABLE simhashFn
    docs_dir files ["index/", "archive/"]
  let all_errors := runAllErrors documents
  let all_warnings := runAllWarnings SIMHASH_AVAILABLE RAPIDFUZZ_AVAILABLE ratioFn documents
  let write := !preCommit && all_errors.isEmpty
  { documents := documents
    all_errors := all_errors
    all_warnings := all_warnings
    registry_written := write
    registry_on_disk := if write then some (generate_registry documents now) else disk0
    exit_code := if all_errors.isEmpty then 0 else 1 }

/-- The concept keys of a grouping dict. -/
def keysOf (m : List (String × List String)) : List String :=
  m.map Prod.fst

/-- Lookup in a grouping dict, defaulting to the empty path list. -/
def lookupG : List (String × List String) → String → List String
  | [], _ => []
  | (k2, ps) :: rest, k => if k2 = k then ps else lookupG rest k

/-- The paths of the documents that are truthy-canonical and normalize to
the given concept key, in document order. -/
def collidePaths (docs : List DocumentInfo) (k : String) : List String :=
  (docs.filter (fun d => canonB d && (normKey d == k))).map DocumentInfo.path

/-- Does the Finding report a canonical collision for the given concept
key? -/
def msgHasKey (k : String) (e : ValidationError) : Bool :=
  match e.message with
  | .multipleCanonical k2 _ => k2 == k
  | _ => false

/-- The title field is absent, or is a string whose characters all
lower-case to something outside `[a-z0-9\s]` (so nothing survives
normalization). -/
def emptyKeyFm (fm : List (String × PyVal)) : Bool :=
  match fmLookup fm "title" with
  | Option.none => true
  | some (.str s) =>
    s.data.all (fun c => !(isLowerAZ c.toLower || isDigit09 c.toLower || isPySpace c.toLower))
  | some _ => false

/-- Concrete documents for the canonical-uniqueness counterexamples and
witnesses. -/
def dC2a : DocumentInfo :=
  { path := "docs/plugin-a.md"
    front_matter := [("canonical", PyVal.int 1), ("title", PyVal.str "Plugin System")]
    content := "", content_hash := "", simhash := Option.none }

def dC2b : DocumentInfo :=
  { path := "docs/plugin-b.md"
    front_matter := [("canonical", PyVal.int 1), ("title", PyVal.str "Plugin System!")]
    content := "", content_hash := "", simhash := Option.none }

def dC10x : DocumentInfo :=
  { path := "docs/x.md"
    front_matter := [("canonical", PyVal.bool true), ("title", PyVal.str "ABC")]
    content := "", content_hash := "", simhash := Option.none }

def dC10y : DocumentInfo :=
  { path := "docs/y.md"
    front_matter := [("canonical", PyVal.bool true), ("title", PyVal.str "XYZ")]
    content := "", content_hash := "", simhash := Option.none }

def dC10p : DocumentInfo :=
  { path := "docs/punct.md"
    front_matter := [("canonical", PyVal.bool true), ("title", PyVal.str "!!!")]
    content := "", content_hash := "", simhash := Option.none }

def dC10q : DocumentInfo :=
  { path := "docs/untitled.md"
    front_matter := [("canonical", PyVal.bool true)]
    content := "", content_hash := "", simhash := Option.none }

/-- Spec-side reading of "denotes a real calendar date": the string splits
on `-` into three numeric components forming a valid proleptic-Gregorian
date with a positive year.  (Used only to state the counterexample.) -/
def denotesRealDate (s : String) : Bool :=
  match pySplit s "-" with
  | [ys, ms, ds] =>
    !ys.data.isEmpty && ys.data.all isDigit09 &&
    !ms.data.isEmpty && ms.data.all isDigit09 &&
    !ds.data.isEmpty && ds.data.all isDigit09 &&
    (let y := digitsVal ys.data
     let m := digitsVal ms.data
     let d := digitsVal ds.data
     decide (1 ≤ y) && decide (1 ≤ m) && decide (m ≤ 12) &&
     decide (1 ≤ d) && decide (d ≤ daysInMonth y m))
  | _ => false

/-- Front matter for the C5 counterexample: a minimal inbox document whose
`created` value `2025-2-30` fails the lexical pattern (one-digit month) and
does not denote a real date (February 30th). -/
def fmC5 : List (String × PyVal) :=
  [("title", PyVal.str "T"), ("doc_type", PyVal.str "plan"),
   ("status", PyVal.str "draft"), ("created", PyVal.str "2025-2-30")]

/-- Concrete documents and ratio function for the detector witnesses. -/
def ratio90 : String → String → Nat := fun _ _ => 90

def dInbox : DocumentInfo :=
  { path := "docs/_inbox/new.md"
    front_matter := [("title", PyVal.str "Plugin System Architecture")]
    content := "", content_hash := "", simhash := Option.none }

def dCorp1 : DocumentInfo :=
  { path := "docs/rfcs/one.md"
    front_matter := [("title", PyVal.str "Plugin System Architecture Design")]
    content := "", content_hash := "", simhash := Option.none }

def dCorp2 : DocumentInfo :=
  { path := "docs/rfcs/two.md"
    front_matter := [("title", PyVal.str "Plugin Architecture")]
    content := "", content_hash := "", simhash := Option.none }

/-- Concrete collaborators for the collector/registry witnesses: a parser
returning a fixed valid front matter, a constant hash, and no simhash. -/
def parse0 : String → Option (List (String × PyVal)) :=
  fun _ => some [("title", PyVal.str "T"), ("doc_type", PyVal.str "guide"),
                 ("status", PyVal.str "active")]

def sha0 : String → String := fun _ => "h"

def sim0 : String → Nat := fun _ => 0

def fileA : RawFile := { rel_path := "a.md", content := "---\nx\n---\nbody" }

def fileB : RawFile := { rel_path := "b.md", content := "---\nx\n---\nbody" }

/-- Lexicographic comparison of character lists (ASCII path order). -/
def charListLe : List Char → List Char → Bool
  | [], _ => true
  | _ :: _, [] => false
  | a :: as, b :: bs => if a = b then charListLe as bs else decide (a < b)

/-- Lexicographic order on path strings. -/
def strLeB (a b : String) : Bool := charListLe a.data b.data

/-- Is the list of paths sorted? -/
def sortedByPathB : List String → Bool
  | [] => true
  | [_] => true
  | a :: b :: rest => strLeB a b && sortedByPathB (b :: rest)

/-- A parser producing complete valid corpus front matter, for the
success-path witnesses. -/
def parse1 : String → Option (List (String × PyVal)) :=
  fun _ => some [("doc_id", PyVal.str "RFC-2025-00001"), ("title", PyVal.str "T"),
                 ("doc_type", PyVal.str "rfc"), ("status", PyVal.str "active"),
                 ("canonical", PyVal.bool false), ("created", PyVal.str "2025-01-02"),
                 ("tags", PyVal.list ["x"]), ("summary", PyVal.str "s")]

/-- A pre-existing registry file used to observe that failed runs leave the
disk untouched. -/
def regPrev : Registry := generate_registry [] "t0"

/-- A delimiter-less file for the C4 witness. -/
def fileNoFm : RawFile := { rel_path := "plain.md", content := "Just text, no delimiters." }

/-! ## Theorems -/

theorem lookupG_insertGroup_same (m : List (String × List String)) (k p : String) :
    lookupG (insertGroup m k p) k = lookupG m k ++ [p] := by
  induction m with
  | nil => simp [insertGroup, lookupG]
  | cons hd tl ih =>
    obtain ⟨k2, ps⟩ := hd
    by_cases h : k2 = k
    · simp [insertGroup, lookupG, h]
    · simp [insertGroup, lookupG, h, ih]

theorem lookupG_insertGroup_ne (m : List (String × List String)) (k p k2 : String)
    (h : k ≠ k2) : lookupG (insertGroup m k p) k2 = lookupG m k2 := by
  induction m with
  | nil => simp [insertGroup, lookupG, h]
  | cons hd tl ih =>
    obtain ⟨k3, ps⟩ := hd
    by_cases h3 : k3 = k
    · subst h3
      simp [insertGroup, lookupG, h]
    · simp [insertGroup, lookupG, h3, ih]

theorem lookupG_foldl (docs : List DocumentInfo) (m : List (String × List String))
    (k : String) :
    lookupG (docs.foldl (fun m d => if canonB d then insertGroup m (normKey d) d.path else m) m) k
      = lookupG m k ++ collidePaths docs k := by
  induction docs generalizing m with
  | nil => simp [collidePaths]
  | cons d rest ih =>
    by_cases hc : canonB d
    · by_cases hk : normKey d = k
      · simp only [List.foldl_cons, hc, if_true, ih, lookupG_insertGroup_same,
          collidePaths, List.filter_cons, hc, hk]
        simp [hk, List.append_assoc]
      · have hne : normKey d ≠ k := hk
        simp only [List.foldl_cons, hc, if_true, ih, lookupG_insertGroup_ne _ _ _ _ hne,
          collidePaths, List.filter_cons]
        simp [hc, hk]
    · simp only [List.foldl_cons, hc, if_false, ih, collidePaths, List.filter_cons]
      simp [hc]

theorem lookupG_canonicalGroups (docs : List DocumentInfo) (k : String) :
    lookupG (canonicalGroups docs) k = collidePaths docs k := by
  simpa [canonicalGroups] using lookupG_foldl docs [] k

theorem keysOf_insertGroup (m : List (String × List String)) (k p : String) :
    keysOf (insertGroup m k p) = if k ∈ keysOf m then keysOf m else keysOf m ++ [k] := by
  induction m with
  | nil => simp [insertGroup, keysOf]
  | cons hd tl ih =>
    obtain ⟨k2, ps⟩ := hd
    by_cases h : k2 = k
    · simp [insertGroup, keysOf, h]
    · have h2 : ¬(k = k2) := fun hk => h hk.symm
      by_cases hm : k ∈ keysOf tl
      · rw [show insertGroup ((k2, ps) :: tl) k p = (k2, ps) :: insertGroup tl k p by
          simp [insertGroup, h]]
        simp only [keysOf, List.map_cons] at ih ⊢
        rw [ih]
        simp only [keysOf] at hm
        simp [List.mem_cons, hm, h2]
      · rw [show insertGroup ((k2, ps) :: tl) k p = (k2, ps) :: insertGroup tl k p by
          simp [insertGroup, h]]
        simp only [keysOf, List.map_cons] at ih ⊢
        rw [ih]
        simp only [keysOf] at hm
        simp [List.mem_cons, hm, h2]

theorem nodup_keysOf_insertGroup (m : List (String × List String)) (k p : String)
    (h : (keysOf m).Nodup) : (keysOf (insertGroup m k p)).Nodup := by
  rw [keysOf_insertGroup]
  by_cases hm : k ∈ keysOf m
  · simpa [hm] using h
  · simp only [hm, if_false]
    simpa [List.nodup_append] using ⟨h, hm⟩

theorem nodup_keysOf_foldl (docs : List DocumentInfo) (m : List (String × List String))
    (h : (keysOf m).Nodup) :
    (keysOf (docs.foldl (fun m d => if canonB d then insertGroup m (normKey d) d.path else m) m)).Nodup := by
  induction docs generalizing m with
  | nil => simpa using h
  | cons d rest ih =>
    by_cases hc : canonB d
    · simpa [hc] using ih _ (nodup_keysOf_insertGroup _ _ _ h)
    · simpa [hc] using ih _ h

theorem nodup_keysOf_canonicalGroups (docs : List DocumentInfo) :
    (keysOf (canonicalGroups docs)).Nodup := by
  simpa [canonicalGroups] using nodup_keysOf_foldl docs [] (by simp [keysOf])

theorem lookupG_eq_nil_of_not_mem (m : List (String × List String)) (k : String)
    (h : k ∉ keysOf m) : lookupG m k = [] := by
  induction m with
  | nil => simp [lookupG]
  | cons hd tl ih =>
    obtain ⟨k2, ps⟩ := hd
    simp only [keysOf, List.map_cons, List.mem_cons, not_or] at h
    have hne : k2 ≠ k := fun hk => h.1 hk.symm
    simpa [lookupG, hne] using ih (by simpa [keysOf] using h.2)

theorem lookupG_of_mem (m : List (String × List String)) (k : String) (ps : List String)
    (hnd : (keysOf m).Nodup) (h : (k, ps) ∈ m) : lookupG m k = ps := by
  induction m with
  | nil => simp at h
  | cons hd tl ih =>
    obtain ⟨k2, ps2⟩ := hd
    simp only [keysOf, List.map_cons, List.nodup_cons] at hnd
    rcases List.mem_cons.mp h with h1 | h1
    · simp only [Prod.mk.injEq] at h1
      obtain ⟨rfl, rfl⟩ := h1
      simp [lookupG]
    · have hkne : k2 ≠ k := by
        intro he
        subst he
        exact hnd.1 (by simpa [keysOf] using List.mem_map_of_mem Prod.fst h1)
      simpa [lookupG, hkne] using ih (by simpa [keysOf] using hnd.2) h1

theorem groupError_eq_some (g : String × List String) (e : ValidationError)
    (h : groupError g = some e) :
    1 < g.2.length ∧ e = ⟨g.2.headD "", .multipleCanonical g.1 g.2, false⟩ := by
  by_cases hl : 1 < g.2.length
  · refine ⟨hl, ?_⟩
    simp only [groupError, hl, if_true, Option.some.injEq] at h
    exact h.symm
  · simp [groupError, hl] at h

theorem mem_keys_of_filterMap_groupError (gs : List (String × List String))
    (e : ValidationError) (k : String) (he : e ∈ gs.filterMap groupError)
    (hk : msgHasKey k e = true) : k ∈ keysOf gs := by
  obtain ⟨g, hg, hsome⟩ := List.mem_filterMap.mp he
  obtain ⟨-, rfl⟩ := groupError_eq_some g e hsome
  simp only [msgHasKey, beq_iff_eq] at hk
  subst hk
  exact List.mem_map_of_mem Prod.fst hg

theorem filter_key_filterMap_groupError (gs : List (String × List String))
    (hnd : (keysOf gs).Nodup) (k : String) :
    ((gs.filterMap groupError).filter (msgHasKey k)).length
      = if 2 ≤ (lookupG gs k).length then 1 else 0 := by
  induction gs with
  | nil => simp [lookupG]
  | cons g rest ih =>
    obtain ⟨k2, ps⟩ := g
    simp only [keysOf, List.map_cons, List.nodup_cons] at hnd
    have ihr := ih (by simpa [keysOf] using hnd.2)
    by_cases hkk : k2 = k
    · subst hkk
      have hnotin : k2 ∉ keysOf rest := by simpa [keysOf] using hnd.1
      have hnone : ((rest.filterMap groupError).filter (msgHasKey k2)) = [] :=
        List.filter_eq_nil_iff.mpr (fun e he hk =>
          hnotin (mem_keys_of_filterMap_groupError rest e k2 he hk))
      have hcons : lookupG ((k2, ps) :: rest) k2 = ps := by simp [lookupG]
      rw [hcons]
      by_cases hl : 1 < ps.length
      · have h2 : 2 ≤ ps.length := hl
        rw [List.filterMap_cons]
        simp only [groupError, hl, if_true]
        rw [List.filter_cons]
        have hmk : msgHasKey k2 ⟨ps.headD "", .multipleCanonical k2 ps, false⟩ = true := by
          simp [msgHasKey]
        rw [hmk, if_pos rfl, hnone]
        simp [h2]
      · have h2 : ¬(2 ≤ ps.length) := by omega
        rw [List.filterMap_cons]
        simp only [groupError, hl, if_false]
        rw [hnone]
        simp [h2]
    · have hlk : lookupG ((k2, ps) :: rest) k = lookupG rest k := by
        simp [lookupG, hkk]
      rw [hlk]
      by_cases hl : 1 < ps.length
      · rw [List.filterMap_cons]
        simp only [groupError, hl, if_true]
        rw [List.filter_cons]
        have hmk : msgHasKey k ⟨ps.headD "", .multipleCanonical k2 ps, false⟩ = false := by
          simp [msgHasKey, hkk]
        rw [hmk]
        simp only [Bool.false_eq_true, if_false]
        exact ihr
      · rw [List.filterMap_cons]
        simp only [groupError, hl, if_false]
        exact ihr

theorem check_canonical_filter_key (docs : List DocumentInfo) (k : String) :
    ((check_canonical_uniqueness docs).filter (msgHasKey k)).length
      = if 2 ≤ (collidePaths docs k).length then 1 else 0 := by
  rw [check_canonical_uniqueness,
    filter_key_filterMap_groupError _ (nodup_keysOf_canonicalGroups docs) k,
    lookupG_canonicalGroups]

theorem check_canonical_mem_characterize (docs : List DocumentInfo)
    (e : ValidationError) (k : String) (ps : List String)
    (he : e ∈ check_canonical_uniqueness docs)
    (hm : e.message = .multipleCanonical k ps) :
    ps = collidePaths docs k ∧ e.path = ps.headD "" ∧ 2 ≤ ps.length ∧
      e.is_warning = false := by
  obtain ⟨g, hg, hsome⟩ := List.mem_filterMap.mp he
  obtain ⟨k2, ps2⟩ := g
  obtain ⟨hl, rfl⟩ := groupError_eq_some _ e hsome
  simp only [Msg.multipleCanonical.injEq] at hm
  obtain ⟨hk, hps⟩ := hm
  subst hk
  subst hps
  have hlook := lookupG_of_mem _ _ _ (nodup_keysOf_canonicalGroups docs) hg
  rw [lookupG_canonicalGroups] at hlook
  exact ⟨hlook.symm, rfl, by simpa using hl, rfl⟩

theorem normKey_of_emptyKeyFm (d : DocumentInfo)
    (h : emptyKeyFm d.front_matter = true) : normKey d = "" := by
  unfold normKey titleStr
  unfold emptyKeyFm at h
  cases hl : fmLookup d.front_matter "title" with
  | none => simp [hl, normalize_title, splitWords, joinSpace]
  | some v =>
    cases v with
    | str s =>
      rw [hl] at h
      simp only [List.all_eq_true] at h
      have hkept : (s.data.map Char.toLower).filter
          (fun c => isLowerAZ c || isDigit09 c || isPySpace c) = [] := by
        rw [List.filter_eq_nil_iff]
        intro c hc
        obtain ⟨c0, hc0, rfl⟩ := List.mem_map.mp hc
        simpa using h c0 hc0
      simp [normalize_title, hkept, splitWords, joinSpace]
    | bool b => rw [hl] at h; simp at h
    | int n => rw [hl] at h; simp at h
    | list xs => rw [hl] at h; simp at h
    | none => rw [hl] at h; simp at h

/-- C2 (corrected): over the full document set, the uniqueness checker emits
an error for a concept key if and only if two or more documents with a
**truthy** `canonical` field normalize to that key; each such group yields
exactly one error, attributed to the first colliding path and listing every
colliding path in document order.  (Hypothesis: canonical documents carry
string-or-absent titles, the inputs on which the script does not raise.) -/
theorem C2_canonical_uniqueness (docs : List DocumentInfo) (k : String)
    (_hwf : ∀ d ∈ docs, canonB d = true → titleWellTypedB d.front_matter = true) :
    (((check_canonical_uniqueness docs).filter (msgHasKey k)).length
       = if 2 ≤ (collidePaths docs k).length then 1 else 0)
    ∧ (∀ e ∈ check_canonical_uniqueness docs, ∀ ps,
        e.message = Msg.multipleCanonical k ps →
          ps = collidePaths docs k ∧ e.path = ps.headD "" ∧ e.is_warning = false) := by
  refine ⟨check_canonical_filter_key docs k, fun e he ps hm => ?_⟩
  obtain ⟨h1, h2, h3, h4⟩ := check_canonical_mem_characterize docs e k ps he hm
  exact ⟨h1, h2, h4⟩

/-- Witness for C2: a concrete corpus with two truthy-canonical documents
whose titles collide at the key "plugin system". -/
theorem C2_canonical_uniqueness_witness :
    (∀ d ∈ [dC2a, dC2b], canonB d = true → titleWellTypedB d.front_matter = true)
    ∧ ((((check_canonical_uniqueness [dC2a, dC2b]).filter (msgHasKey "plugin system")).length
         = if 2 ≤ (collidePaths [dC2a, dC2b] "plugin system").length then 1 else 0)
       ∧ (∀ e ∈ check_canonical_uniqueness [dC2a, dC2b], ∀ ps,
           e.message = Msg.multipleCanonical "plugin system" ps →
             ps = collidePaths [dC2a, dC2b] "plugin system" ∧ e.path = ps.headD ""
               ∧ e.is_warning = false)) :=
  ⟨by decide, C2_canonical_uniqueness [dC2a, dC2b] "plugin system" (by decide)⟩

/-- Counterexample to C2 as stated: two documents whose `canonical` field is
the integer 1 — truthy, but not the boolean `true` — still collide and the
checker emits the duplicate-canonical error, although the claim exempts
every document whose `canonical` is not boolean `true`. -/
theorem C2_counterexample :
    pyGet dC2a.front_matter "canonical" = PyVal.int 1
    ∧ pyGet dC2b.front_matter "canonical" = PyVal.int 1
    ∧ PyVal.int 1 ≠ PyVal.bool true
    ∧ check_canonical_uniqueness [dC2a, dC2b]
        = [⟨"docs/plugin-a.md",
            .multipleCanonical "plugin system" ["docs/plugin-a.md", "docs/plugin-b.md"],
            false⟩] :=
  ⟨by decide, by decide, by decide, by decide⟩

/-- C10 (corrected): if at least two documents with a truthy `canonical`
field either lack a title or have a title whose characters all lower-case to
something outside `[a-z0-9\s]`, then all those titles normalize to the empty
concept key and the checker reports one duplicate-canonical error for the
empty concept whose path list contains every such document. -/
theorem C10_empty_concept (docs : List DocumentInfo)
    (h2 : 2 ≤ (docs.filter (fun d => canonB d && emptyKeyFm d.front_matter)).length) :
    ∃ e ∈ check_canonical_uniqueness docs, ∃ ps,
      e.message = Msg.multipleCanonical "" ps ∧
      ∀ d ∈ docs, canonB d = true → emptyKeyFm d.front_matter = true →
        d.path ∈ ps := by
  have hmono : List.Sublist (docs.filter (fun d => canonB d && emptyKeyFm d.front_matter))
      (docs.filter (fun d => canonB d && (normKey d == ""))) := by
    apply List.monotone_filter_right
    intro d hd
    simp only [Bool.and_eq_true] at hd ⊢
    exact ⟨hd.1, by simp [normKey_of_emptyKeyFm d hd.2]⟩
  have hcol : 2 ≤ (collidePaths docs "").length := by
    rw [collidePaths, List.length_map]
    exact le_trans h2 hmono.length_le
  have hcnt := check_canonical_filter_key docs ""
  rw [if_pos hcol] at hcnt
  have hne : (check_canonical_uniqueness docs).filter (msgHasKey "") ≠ [] := by
    intro hnil
    rw [hnil] at hcnt
    simp at hcnt
  obtain ⟨e, hef⟩ := List.exists_mem_of_ne_nil _ hne
  have hememe := List.mem_filter.mp hef
  obtain ⟨he, hkey⟩ := hememe
  obtain ⟨ps, hm⟩ : ∃ ps, e.message = Msg.multipleCanonical "" ps := by
    unfold msgHasKey at hkey
    cases hmsg : e.message with
    | multipleCanonical k2 ps =>
      rw [hmsg] at hkey
      simp only [beq_iff_eq] at hkey
      subst hkey
      exact ⟨ps, rfl⟩
    | missingRequired a => rw [hmsg] at hkey; simp at hkey
    | invalidDocType a b => rw [hmsg] at hkey; simp at hkey
    | invalidStatus a b => rw [hmsg] at hkey; simp at hkey
    | invalidDocId a => rw [hmsg] at hkey; simp at hkey
    | invalidDateFormat a b => rw [hmsg] at hkey; simp at hkey
    | invalidDateValue a b => rw [hmsg] at hkey; simp at hkey
    | canonicalNotBool a => rw [hmsg] at hkey; simp at hkey
    | tagsNotList a => rw [hmsg] at hkey; simp at hkey
    | nearDuplicate a b c d => rw [hmsg] at hkey; simp at hkey
    | missingDeps => rw [hmsg] at hkey; simp at hkey
  refine ⟨e, he, ps, hm, fun d hd hcan hkeyd => ?_⟩
  obtain ⟨hps, -, -, -⟩ := check_canonical_mem_characterize docs e "" ps he hm
  rw [hps, collidePaths]
  refine List.mem_map_of_mem DocumentInfo.path ?_
  rw [List.mem_filter]
  exact ⟨hd, by simp [hcan, normKey_of_emptyKeyFm d hkeyd]⟩

/-- Witness for C10: a punctuation-only title and a missing title both
normalize to the empty key and are reported against each other. -/
theorem C10_empty_concept_witness :
    2 ≤ ([dC10p, dC10q].filter (fun d => canonB d && emptyKeyFm d.front_matter)).length
    ∧ ∃ e ∈ check_canonical_uniqueness [dC10p, dC10q], ∃ ps,
        e.message = Msg.multipleCanonical "" ps ∧
        ∀ d ∈ [dC10p, dC10q], canonB d = true → emptyKeyFm d.front_matter = true →
          d.path ∈ ps :=
  ⟨by decide, C10_empty_concept [dC10p, dC10q] (by decide)⟩

/-- Counterexample to C10 as stated: `"ABC"` and `"XYZ"` consist only of
characters outside lowercase letters, digits and whitespace, yet they
normalize to the distinct non-empty keys `"abc"` and `"xyz"` (lower-casing
happens before character deletion) and no error is emitted. -/
theorem C10_counterexample :
    canonB dC10x = true ∧ canonB dC10y = true
    ∧ ("ABC".data.all (fun c => !(isLowerAZ c || isDigit09 c || isPySpace c))) = true
    ∧ ("XYZ".data.all (fun c => !(isLowerAZ c || isDigit09 c || isPySpace c))) = true
    ∧ titleStr dC10x.front_matter = "ABC" ∧ titleStr dC10y.front_matter = "XYZ"
    ∧ normKey dC10x = "abc" ∧ normKey dC10y = "xyz"
    ∧ check_canonical_uniqueness [dC10x, dC10y] = [] :=
  ⟨by decide, by decide, by decide, by decide, by decide, by decide, by decide,
   by decide, by decide⟩

theorem mem_missingFieldErrors (p : String) (fm : List (String × PyVal)) (ib : Bool)
    (e : ValidationError) (h : e ∈ missingFieldErrors p fm ib) :
    e.path = p ∧ e.is_warning = false ∧ ∃ l, e.message = Msg.missingRequired l := by
  simp only [missingFieldErrors] at h
  split at h <;> split at h <;>
    first
    | (simp only [List.mem_singleton] at h; subst h; exact ⟨rfl, rfl, _, rfl⟩)
    | cases h

theorem mem_docTypeErrors (p : String) (fm : List (String × PyVal))
    (e : ValidationError) (h : e ∈ docTypeErrors p fm) :
    e.path = p ∧ e.is_warning = false ∧ ∃ v l, e.message = Msg.invalidDocType v l := by
  simp only [docTypeErrors] at h
  split at h
  · simp only [List.mem_singleton] at h
    subst h
    exact ⟨rfl, rfl, _, _, rfl⟩
  · simp at h

theorem mem_statusErrors (p : String) (fm : List (String × PyVal))
    (e : ValidationError) (h : e ∈ statusErrors p fm) :
    e.path = p ∧ e.is_warning = false ∧ ∃ v l, e.message = Msg.invalidStatus v l := by
  simp only [statusErrors] at h
  split at h
  · simp only [List.mem_singleton] at h
    subst h
    exact ⟨rfl, rfl, _, _, rfl⟩
  · simp at h

theorem mem_docIdErrors (p : String) (fm : List (String × PyVal)) (ib : Bool)
    (e : ValidationError) (h : e ∈ docIdErrors p fm ib) :
    e.path = p ∧ e.is_warning = false ∧ ∃ v, e.message = Msg.invalidDocId v := by
  simp only [docIdErrors] at h
  split at h
  · simp at h
  · split at h
    · simp only [List.mem_singleton] at h
      subst h
      exact ⟨rfl, rfl, _, rfl⟩
    · simp at h

theorem mem_dateFieldErrors (p : String) (fm : List (String × PyVal)) (field : String)
    (e : ValidationError) (h : e ∈ dateFieldErrors p fm field) :
    e.path = p ∧ e.is_warning = false ∧
      ∃ s, e.message = Msg.invalidDateFormat field s ∨
        e.message = Msg.invalidDateValue field s := by
  simp only [dateFieldErrors] at h
  split at h
  · split at h
    · simp only [List.mem_singleton] at h
      subst h
      exact ⟨rfl, rfl, _, Or.inl rfl⟩
    · split at h
      · simp only [List.mem_singleton] at h
        subst h
        exact ⟨rfl, rfl, _, Or.inr rfl⟩
      · simp at h
  · simp at h

theorem mem_canonicalTypeErrors (p : String) (fm : List (String × PyVal))
    (e : ValidationError) (h : e ∈ canonicalTypeErrors p fm) :
    e.path = p ∧ e.is_warning = false ∧ ∃ v, e.message = Msg.canonicalNotBool v := by
  simp only [canonicalTypeErrors] at h
  split at h
  · simp at h
  · simp at h
  · simp only [List.mem_singleton] at h
    subst h
    exact ⟨rfl, rfl, _, rfl⟩

theorem mem_tagsTypeErrors (p : String) (fm : List (String × PyVal))
    (e : ValidationError) (h : e ∈ tagsTypeErrors p fm) :
    e.path = p ∧ e.is_warning = false ∧ ∃ v, e.message = Msg.tagsNotList v := by
  simp only [tagsTypeErrors] at h
  split at h
  · simp at h
  · simp at h
  · simp only [List.mem_singleton] at h
    subst h
    exact ⟨rfl, rfl, _, rfl⟩

/-- Every Finding of the per-document validator is attributed to the
document's path and has error severity. -/
theorem validate_mem (p : String) (fm : List (String × PyVal)) (ib : Bool)
    (e : ValidationError) (he : e ∈ validate_front_matter_fields p fm ib) :
    e.path = p ∧ e.is_warning = false := by
  simp only [validate_front_matter_fields, List.mem_append] at he
  rcases he with ((((((h | h) | h) | h) | h) | h) | h) | h
  · exact (mem_missingFieldErrors p fm ib e h).imp id And.left
  · exact (mem_docTypeErrors p fm e h).imp id And.left
  · exact (mem_statusErrors p fm e h).imp id And.left
  · exact (mem_docIdErrors p fm ib e h).imp id And.left
  · exact (mem_dateFieldErrors p fm "created" e h).imp id And.left
  · exact (mem_dateFieldErrors p fm "updated" e h).imp id And.left
  · exact (mem_canonicalTypeErrors p fm e h).imp id And.left
  · exact (mem_tagsTypeErrors p fm e h).imp id And.left

/-- Counterexample to C5 as stated: a `created` value that fails both the
lexical pattern and calendar validity yields exactly **one** error Finding
(the lexical one), not two — the calendar check runs only in the `else`
branch of the lexical check. -/
theorem C5_counterexample :
    DATE_PATTERN_match "2025-2-30" = false
    ∧ denotesRealDate "2025-2-30" = false
    ∧ validate_front_matter_fields "docs/_inbox/d.md" fmC5 true
        = [⟨"docs/_inbox/d.md", .invalidDateFormat "created" "2025-2-30", false⟩] :=
  ⟨by decide, by decide, by decide⟩

/-- C5 (corrected): when a date field's value fails the `YYYY-MM-DD` lexical
pattern, the validator reports exactly one error Finding for that field —
the lexical-format one — and no calendar-validity Finding, regardless of
whether the value denotes a real date. -/
theorem C5_single_date_error (p : String) (fm : List (String × PyVal)) (ib : Bool)
    (field s : String) (hf : field = "created" ∨ field = "updated")
    (hv : pyGet fm field = PyVal.str s) (hs : s ≠ "")
    (hlex : DATE_PATTERN_match s = false) :
    ((validate_front_matter_fields p fm ib).filter
        (fun e => e.message == Msg.invalidDateFormat field s)).length = 1
    ∧ (validate_front_matter_fields p fm ib).filter
        (fun e => e.message == Msg.invalidDateValue field s) = [] := by
  have hsb : (s == "") = false := by simpa using hs
  have hTruthy : (PyVal.str s).truthy = true := by simp [PyVal.truthy, hsb]
  have hOurs : dateFieldErrors p fm field
      = [⟨p, .invalidDateFormat field s, false⟩] := by
    rw [dateFieldErrors, hv]
    simp [hTruthy, PyVal.pyStr, hlex]
  have hNone : ∀ (m : Msg) (l : List ValidationError),
      (∀ e ∈ l, (e.message == m) = false) →
      l.filter (fun e => e.message == m) = [] := by
    intro m l hl
    exact List.filter_eq_nil_iff.mpr (by intro e he; simp [hl e he])
  have hMissing : ∀ m, (∀ l2, Msg.missingRequired l2 ≠ m) →
      (missingFieldErrors p fm ib).filter (fun e => e.message == m) = [] := by
    intro m hm
    refine hNone m _ (fun e he => ?_)
    obtain ⟨-, -, l2, h2⟩ := mem_missingFieldErrors p fm ib e he
    simpa [h2] using hm l2
  have hDocType : ∀ m, (∀ v l2, Msg.invalidDocType v l2 ≠ m) →
      (docTypeErrors p fm).filter (fun e => e.message == m) = [] := by
    intro m hm
    refine hNone m _ (fun e he => ?_)
    obtain ⟨-, -, v, l2, h2⟩ := mem_docTypeErrors p fm e he
    simpa [h2] using hm v l2
  have hStatus : ∀ m, (∀ v l2, Msg.invalidStatus v l2 ≠ m) →
      (statusErrors p fm).filter (fun e => e.message == m) = [] := by
    intro m hm
    refine hNone m _ (fun e he => ?_)
    obtain ⟨-, -, v, l2, h2⟩ := mem_statusErrors p fm e he
    simpa [h2] using hm v l2
  have hDocId : ∀ m, (∀ v, Msg.invalidDocId v ≠ m) →
      (docIdErrors p fm ib).filter (fun e => e.message == m) = [] := by
    intro m hm
    refine hNone m _ (fun e he => ?_)
    obtain ⟨-, -, v, h2⟩ := mem_docIdErrors p fm ib e he
    simpa [h2] using hm v
  have hCanon : ∀ m, (∀ v, Msg.canonicalNotBool v ≠ m) →
      (canonicalTypeErrors p fm).filter (fun e => e.message == m) = [] := by
    intro m hm
    refine hNone m _ (fun e he => ?_)
    obtain ⟨-, -, v, h2⟩ := mem_canonicalTypeErrors p fm e he
    simpa [h2] using hm v
  have hTags : ∀ m, (∀ v, Msg.tagsNotList v ≠ m) →
      (tagsTypeErrors p fm).filter (fun e => e.message == m) = [] := by
    intro m hm
    refine hNone m _ (fun e he => ?_)
    obtain ⟨-, -, v, h2⟩ := mem_tagsTypeErrors p fm e he
    simpa [h2] using hm v
  have hDate : ∀ (f2 : String) m, (∀ s2, Msg.invalidDateFormat f2 s2 ≠ m) →
      (∀ s2, Msg.invalidDateValue f2 s2 ≠ m) →
      (dateFieldErrors p fm f2).filter (fun e => e.message == m) = [] := by
    intro f2 m hm1 hm2
    refine hNone m _ (fun e he => ?_)
    obtain ⟨-, -, s2, h2 | h2⟩ := mem_dateFieldErrors p fm f2 e he
    · simpa [h2] using hm1 s2
    · simpa [h2] using hm2 s2
  rcases hf with rfl | rfl
  · constructor
    · rw [validate_front_matter_fields]
      repeat rw [List.filter_append]
      rw [hMissing _ (by intro l2 h; cases h),
        hDocType _ (by intro v l2 h; cases h),
        hStatus _ (by intro v l2 h; cases h),
        hDocId _ (by intro v h; cases h),
        hCanon _ (by intro v h; cases h),
        hTags _ (by intro v h; cases h),
        hDate "updated" _ (by intro s2 h; simp at h) (by intro s2 h; simp at h),
        hOurs]
      simp
    · rw [validate_front_matter_fields]
      repeat rw [List.filter_append]
      rw [hMissing _ (by intro l2 h; cases h),
        hDocType _ (by intro v l2 h; cases h),
        hStatus _ (by intro v l2 h; cases h),
        hDocId _ (by intro v h; cases h),
        hCanon _ (by intro v h; cases h),
        hTags _ (by intro v h; cases h),
        hDate "updated" _ (by intro s2 h; simp at h) (by intro s2 h; simp at h),
        hOurs]
      simp
  · constructor
    · rw [validate_front_matter_fields]
      repeat rw [List.filter_append]
      rw [hMissing _ (by intro l2 h; cases h),
        hDocType _ (by intro v l2 h; cases h),
        hStatus _ (by intro v l2 h; cases h),
        hDocId _ (by intro v h; cases h),
        hCanon _ (by intro v h; cases h),
        hTags _ (by intro v h; cases h),
        hDate "created" _ (by intro s2 h; simp at h) (by intro s2 h; simp at h),
        hOurs]
      simp
    · rw [validate_front_matter_fields]
      repeat rw [List.filter_append]
      rw [hMissing _ (by intro l2 h; cases h),
        hDocType _ (by intro v l2 h; cases h),
        hStatus _ (by intro v l2 h; cases h),
        hDocId _ (by intro v h; cases h),
        hCanon _ (by intro v h; cases h),
        hTags _ (by intro v h; cases h),
        hDate "created" _ (by intro s2 h; simp at h) (by intro s2 h; simp at h),
        hOurs]
      simp

/-- Witness for C5 (amended): the concrete `2025-2-30` input. -/
theorem C5_single_date_error_witness :
    (("created" : String) = "created" ∨ ("created" : String) = "updated")
    ∧ pyGet fmC5 "created" = PyVal.str "2025-2-30"
    ∧ ("2025-2-30" : String) ≠ ""
    ∧ DATE_PATTERN_match "2025-2-30" = false
    ∧ (((validate_front_matter_fields "docs/_inbox/d.md" fmC5 true).filter
          (fun e => e.message == Msg.invalidDateFormat "created" "2025-2-30")).length = 1
       ∧ (validate_front_matter_fields "docs/_inbox/d.md" fmC5 true).filter
          (fun e => e.message == Msg.invalidDateValue "created" "2025-2-30") = []) :=
  ⟨Or.inl rfl, by decide, by decide, by decide,
   C5_single_date_error "docs/_inbox/d.md" fmC5 true "created" "2025-2-30"
     (Or.inl rfl) (by decide) (by decide) (by decide)⟩

theorem scanCorpus_eq (sh rf : Bool) (ratioFn : String → String → Nat) (ht ts : Nat)
    (i : DocumentInfo) (cs : List DocumentInfo) :
    scanCorpus sh rf ratioFn ht ts i cs
      = match cs.find? (nearDupQualifies sh rf ratioFn ht ts i) with
        | some c => [nearDupWarning sh rf ratioFn i c]
        | Option.none => [] := by
  induction cs with
  | nil => simp [scanCorpus]
  | cons c rest ih =>
    by_cases hq : nearDupQualifies sh rf ratioFn ht ts i c
    · simp [scanCorpus, hq, List.find?_cons_of_pos]
    · rw [List.find?_cons_of_neg _ (by simpa using hq)]
      simpa [scanCorpus, hq] using ih

theorem mem_scanCorpus (sh rf : Bool) (ratioFn : String → String → Nat) (ht ts : Nat)
    (i : DocumentInfo) (cs : List DocumentInfo) (e : ValidationError)
    (h : e ∈ scanCorpus sh rf ratioFn ht ts i cs) :
    ∃ c ∈ cs, e = nearDupWarning sh rf ratioFn i c := by
  induction cs with
  | nil => simp [scanCorpus] at h
  | cons c rest ih =>
    by_cases hq : nearDupQualifies sh rf ratioFn ht ts i c
    · simp only [scanCorpus, hq, if_true, List.mem_singleton] at h
      exact ⟨c, List.mem_cons_self c rest, h⟩
    · simp only [scanCorpus, hq, if_false] at h
      obtain ⟨c2, hc2, he⟩ := ih (by simpa using h)
      exact ⟨c2, List.mem_cons_of_mem c hc2, he⟩

/-- With at least one similarity capability available, the detector output
is: for each inbox document in order, the warning for the first qualifying
corpus document, if any. -/
theorem detect_eq_filterMap (sh rf : Bool) (ratioFn : String → String → Nat)
    (docs : List DocumentInfo) (ht ts : Nat) (hcond : (!sh && !rf) = false) :
    detect_near_duplicates sh rf ratioFn docs ht ts
      = (docs.filter isInboxDoc).filterMap (fun i =>
          ((docs.filter (fun d => !isInboxDoc d)).find?
            (nearDupQualifies sh rf ratioFn ht ts i)).map
              (nearDupWarning sh rf ratioFn i)) := by
  rw [detect_near_duplicates, hcond]
  simp only [Bool.false_eq_true, if_false]
  generalize docs.filter (fun d => !isInboxDoc d) = corpus
  induction docs.filter isInboxDoc with
  | nil => simp
  | cons i rest ih =>
    rw [List.flatMap_cons, List.filterMap_cons, scanCorpus_eq, ih]
    cases corpus.find? (nearDupQualifies sh rf ratioFn ht ts i) with
    | none => simp
    | some c => simp

/-- Every Finding the detector produces is warning-severity. -/
theorem detect_all_warnings (sh rf : Bool) (ratioFn : String → String → Nat)
    (docs : List DocumentInfo) (ht ts : Nat) :
    ∀ e ∈ detect_near_duplicates sh rf ratioFn docs ht ts, e.is_warning = true := by
  intro e he
  rw [detect_near_duplicates] at he
  split at he
  · simp only [List.mem_singleton] at he
    subst he
    rfl
  · obtain ⟨i, -, hscan⟩ := List.mem_flatMap.mp he
    obtain ⟨c, -, rfl⟩ := mem_scanCorpus _ _ _ _ _ _ _ _ hscan
    rfl

/-- The path of every Finding the detector produces is `(system)` or the
path of one of the documents. -/
theorem detect_mem_path (sh rf : Bool) (ratioFn : String → String → Nat)
    (docs : List DocumentInfo) (ht ts : Nat) :
    ∀ e ∈ detect_near_duplicates sh rf ratioFn docs ht ts,
      e.path = "(system)" ∨ e.path ∈ docs.map DocumentInfo.path := by
  intro e he
  rw [detect_near_duplicates] at he
  split at he
  · simp only [List.mem_singleton] at he
    subst he
    exact Or.inl rfl
  · obtain ⟨i, hi, hscan⟩ := List.mem_flatMap.mp he
    obtain ⟨c, -, rfl⟩ := mem_scanCorpus _ _ _ _ _ _ _ _ hscan
    exact Or.inr (List.mem_map_of_mem DocumentInfo.path (List.mem_of_mem_filter hi))

theorem find?_congr_pred {α : Type} (l : List α) (p q : α → Bool)
    (h : ∀ a, p a = q a) : l.find? p = l.find? q := by
  induction l with
  | nil => simp
  | cons a rest ih =>
    by_cases hp : p a
    · rw [List.find?_cons_of_pos _ hp, List.find?_cons_of_pos _ ((h a) ▸ hp)]
    · rw [List.find?_cons_of_neg _ hp, List.find?_cons_of_neg _ ((h a) ▸ hp), ih]

/-- C3 (confirmed): with at least one similarity capability available, the
detector processes inbox documents in collection order and, for each, scans
corpus documents in collection order, emitting one warning for the first
corpus document with title similarity at least 80 or Hamming distance at
most 8 and then stopping; every Finding it emits is a warning, and at most
one warning arises per inbox document. -/
theorem C3_near_duplicate_first_match (sh rf : Bool)
    (ratioFn : String → String → Nat) (docs : List DocumentInfo)
    (h : sh = true ∨ rf = true) :
    detect_near_duplicates sh rf ratioFn docs 8 80
      = (docs.filter isInboxDoc).filterMap (fun i =>
          ((docs.filter (fun d => !isInboxDoc d)).find? (fun c =>
            decide (80 ≤ title_sim_of rf ratioFn i c) ||
            decide (hamming_of sh i c ≤ 8))).map (nearDupWarning sh rf ratioFn i))
    ∧ (∀ e ∈ detect_near_duplicates sh rf ratioFn docs 8 80, e.is_warning = true)
    ∧ (detect_near_duplicates sh rf ratioFn docs 8 80).length
        ≤ (docs.filter isInboxDoc).length := by
  have hcond : (!sh && !rf) = false := by rcases h with rfl | rfl <;> simp
  have heq := detect_eq_filterMap sh rf ratioFn docs 8 80 hcond
  refine ⟨?_, detect_all_warnings sh rf ratioFn docs 8 80, ?_⟩
  · rw [heq]
    rfl
  · rw [heq]
    exact List.length_filterMap_le _ _

/-- Witness for C3: one inbox document, two qualifying corpus documents,
exactly one warning (for the first). -/
theorem C3_near_duplicate_first_match_witness :
    ((false : Bool) = true ∨ (true : Bool) = true)
    ∧ (detect_near_duplicates false true ratio90 [dInbox, dCorp1, dCorp2] 8 80
        = ([dInbox, dCorp1, dCorp2].filter isInboxDoc).filterMap (fun i =>
            (([dInbox, dCorp1, dCorp2].filter (fun d => !isInboxDoc d)).find? (fun c =>
              decide (80 ≤ title_sim_of true ratio90 i c) ||
              decide (hamming_of false i c ≤ 8))).map (nearDupWarning false true ratio90 i))
       ∧ (∀ e ∈ detect_near_duplicates false true ratio90 [dInbox, dCorp1, dCorp2] 8 80,
           e.is_warning = true)
       ∧ (detect_near_duplicates false true ratio90 [dInbox, dCorp1, dCorp2] 8 80).length
           ≤ ([dInbox, dCorp1, dCorp2].filter isInboxDoc).length)
    ∧ detect_near_duplicates false true ratio90 [dInbox, dCorp1, dCorp2] 8 80
        = [nearDupWarning false true ratio90 dInbox dCorp1] :=
  ⟨Or.inr rfl,
   C3_near_duplicate_first_match false true ratio90 [dInbox, dCorp1, dCorp2] (Or.inr rfl),
   by decide⟩

/-- C9 (confirmed): the skip notice appears iff both capabilities are
missing; with exactly one capability the detector still runs — a missing
fuzzy matcher contributes title similarity 0 (so qualification reduces to
the Hamming test), and missing fingerprints contribute the sentinel
distance 999 (so qualification reduces to the title test, 999 never being
at most the threshold 8). -/
theorem C9_capability_degradation (sh rf : Bool) (ratioFn : String → String → Nat)
    (docs : List DocumentInfo) :
    (missingDepsWarning ∈ detect_near_duplicates sh rf ratioFn docs 8 80
       ↔ sh = false ∧ rf = false)
    ∧ (rf = false → ∀ d1 d2, title_sim_of rf ratioFn d1 d2 = 0)
    ∧ (sh = false → ∀ d1 d2, hamming_of sh d1 d2 = 999)
    ∧ (sh = true → rf = false →
        detect_near_duplicates sh rf ratioFn docs 8 80
          = (docs.filter isInboxDoc).filterMap (fun i =>
              ((docs.filter (fun d => !isInboxDoc d)).find? (fun c =>
                decide (hamming_of sh i c ≤ 8))).map (nearDupWarning sh rf ratioFn i)))
    ∧ (sh = false → rf = true →
        detect_near_duplicates sh rf ratioFn docs 8 80
          = (docs.filter isInboxDoc).filterMap (fun i =>
              ((docs.filter (fun d => !isInboxDoc d)).find? (fun c =>
                decide (80 ≤ title_sim_of rf ratioFn i c))).map
                  (nearDupWarning sh rf ratioFn i))) := by
  refine ⟨⟨?_, ?_⟩, ?_, ?_, ?_, ?_⟩
  · intro hmem
    by_cases hsh : sh = false
    · by_cases hrf : rf = false
      · exact ⟨hsh, hrf⟩
      · have hcond : (!sh && !rf) = false := by
          cases rf
          · exact absurd rfl hrf
          · simp
        rw [detect_eq_filterMap sh rf ratioFn docs 8 80 hcond] at hmem
        obtain ⟨i, -, hsome⟩ := List.mem_filterMap.mp hmem
        cases hfind : (docs.filter (fun d => !isInboxDoc d)).find?
            (nearDupQualifies sh rf ratioFn 8 80 i) with
        | none => rw [hfind] at hsome; cases hsome
        | some c =>
          rw [hfind] at hsome
          simp only [Option.map_some', Option.some.injEq] at hsome
          exact absurd (congrArg ValidationError.message hsome)
            (by simp [nearDupWarning, missingDepsWarning])
    · have hcond : (!sh && !rf) = false := by
        cases sh
        · exact absurd rfl hsh
        · simp
      rw [detect_eq_filterMap sh rf ratioFn docs 8 80 hcond] at hmem
      obtain ⟨i, -, hsome⟩ := List.mem_filterMap.mp hmem
      cases hfind : (docs.filter (fun d => !isInboxDoc d)).find?
          (nearDupQualifies sh rf ratioFn 8 80 i) with
      | none => rw [hfind] at hsome; cases hsome
      | some c =>
        rw [hfind] at hsome
        simp only [Option.map_some', Option.some.injEq] at hsome
        exact absurd (congrArg ValidationError.message hsome)
          (by simp [nearDupWarning, missingDepsWarning])
  · rintro ⟨rfl, rfl⟩
    simp [detect_near_duplicates]
  · rintro rfl d1 d2
    simp [title_sim_of]
  · rintro rfl d1 d2
    rfl
  · rintro rfl rfl
    rw [detect_eq_filterMap true false ratioFn docs 8 80 (by simp)]
    refine List.filterMap_congr (fun i hi => ?_)
    rw [find?_congr_pred _ _ (fun c => decide (hamming_of true i c ≤ 8)) (fun c => ?_)]
    simp [nearDupQualifies, title_sim_of]
  · rintro rfl rfl
    rw [detect_eq_filterMap false true ratioFn docs 8 80 (by simp)]
    refine List.filterMap_congr (fun i hi => ?_)
    rw [find?_congr_pred _ _ (fun c => decide (80 ≤ title_sim_of true ratioFn i c))
      (fun c => ?_)]
    simp [nearDupQualifies, hamming_of]

/-- Witness for C9: with both capabilities unavailable the skip notice is
emitted (conjunct 1 applied in the reverse direction), and with only
simhash available the hamming-only characterization holds on a concrete
corpus. -/
theorem C9_capability_degradation_witness :
    missingDepsWarning ∈ detect_near_duplicates false false ratio90 [dInbox, dCorp1] 8 80
    ∧ detect_near_duplicates true false ratio90 [dInbox, dCorp1] 8 80
        = ([dInbox, dCorp1].filter isInboxDoc).filterMap (fun i =>
            (([dInbox, dCorp1].filter (fun d => !isInboxDoc d)).find? (fun c =>
              decide (hamming_of true i c ≤ 8))).map (nearDupWarning true false ratio90 i)) :=
  ⟨((C9_capability_degradation false false ratio90 [dInbox, dCorp1]).1).mpr ⟨rfl, rfl⟩,
   ((C9_capability_degradation true false ratio90 [dInbox, dCorp1]).2.2.2.1) rfl rfl⟩

theorem fmLookup_dictSet_ne (m : List (String × PyVal)) (k k2 : String) (v : PyVal)
    (h : k ≠ k2) : fmLookup (dictSet m k v) k2 = fmLookup m k2 := by
  induction m with
  | nil => simp [dictSet, fmLookup, h]
  | cons kv rest ih =>
    obtain ⟨k3, w⟩ := kv
    by_cases h3 : k3 = k
    · subst h3
      simp [dictSet, fmLookup, h]
    · simp [dictSet, fmLookup, h3, ih]

theorem fmLookup_none_keys (fm : List (String × PyVal)) (k : String)
    (h : fmLookup fm k = Option.none) : ∀ kv ∈ fm, kv.1 ≠ k := by
  induction fm with
  | nil => simp
  | cons kv rest ih =>
    obtain ⟨k2, v⟩ := kv
    intro kv2 hm
    by_cases h2 : k2 = k
    · rw [fmLookup, if_pos h2] at h
      cases h
    · rw [fmLookup, if_neg h2] at h
      rcases List.mem_cons.mp hm with rfl | hm2
      · exact h2
      · exact ih h kv2 hm2

theorem fmLookup_foldl_dictSet (kvs : List (String × PyVal))
    (m : List (String × PyVal)) (k : String) (h : ∀ kv ∈ kvs, kv.1 ≠ k) :
    fmLookup (kvs.foldl (fun m kv => dictSet m kv.1 kv.2) m) k = fmLookup m k := by
  induction kvs generalizing m with
  | nil => rfl
  | cons kv rest ih =>
    rw [List.foldl_cons]
    rw [ih _ (fun kv2 hm => h kv2 (List.mem_cons_of_mem kv hm))]
    exact fmLookup_dictSet_ne m kv.1 k kv.2 (h kv (List.mem_cons_self kv rest))

/-- When the front matter does not itself use the reserved key `path`, the
registry record's `path` entry is the document's path. -/
theorem docEntry_path (d : DocumentInfo)
    (h : fmLookup d.front_matter "path" = Option.none) :
    fmLookup (docEntry d) "path" = some (PyVal.str d.path) := by
  rw [docEntry]
  have hbase : fmLookup
      [("path", PyVal.str d.path), ("sha256", PyVal.str d.content_hash)] "path"
      = some (PyVal.str d.path) := by rfl
  have hfold := fmLookup_foldl_dictSet d.front_matter
    [("path", PyVal.str d.path), ("sha256", PyVal.str d.content_hash)] "path"
    (fmLookup_none_keys d.front_matter "path" h)
  cases hsim : d.simhash with
  | none => rw [hfold, hbase]
  | some v =>
    rw [fmLookup_dictSet_ne _ _ _ _ (by decide), hfold, hbase]

theorem collectOne_path (parse : String → Option (List (String × PyVal)))
    (sha256Fn : String → String) (sh : Bool) (simhashFn : String → Nat)
    (docs_dir : String) (excl : List String) (f : RawFile) (d : DocumentInfo)
    (h : collectOne parse sha256Fn sh simhashFn docs_dir excl f = some d) :
    d.path = docs_dir ++ "/" ++ f.rel_path := by
  rw [collectOne] at h
  split at h
  · cases h
  · split at h
    · cases h
    · split at h
      · cases h
      · simp only [Option.some.injEq] at h
        subst h
        rfl

/-- The collector output maps, path-wise and in order, onto the eligible
files in traversal order: the collector sorts nothing. -/
theorem collect_map_path (parse : String → Option (List (String × PyVal)))
    (sha256Fn : String → String) (sh : Bool) (simhashFn : String → Nat)
    (docs_dir : String) (files : List RawFile) (excl : List String) :
    (collect_documents parse sha256Fn sh simhashFn docs_dir files excl).map
        DocumentInfo.path
      = (files.filter (fun f =>
          (collectOne parse sha256Fn sh simhashFn docs_dir excl f).isSome)).map
          (fun f => docs_dir ++ "/" ++ f.rel_path) := by
  induction files with
  | nil => rfl
  | cons f rest ih =>
    rw [collect_documents] at ih ⊢
    rw [List.filterMap_cons]
    cases hc : collectOne parse sha256Fn sh simhashFn docs_dir excl f with
    | none =>
      rw [List.filter_cons_of_neg (by simp [hc])]
      exact ih
    | some d =>
      rw [List.filter_cons_of_pos (by simp [hc])]
      simp only [List.map_cons]
      rw [collectOne_path _ _ _ _ _ _ _ _ hc]
      exact congrArg _ ih

/-- C8 (confirmed): the registry builder is deterministic in the document
set — two runs over the same documents agree on `by_type`, `by_status` and
`docs`; only `generated_at` carries the run timestamp. -/
theorem C8_registry_idempotent (docs : List DocumentInfo) (t1 t2 : String) :
    (generate_registry docs t1).by_type = (generate_registry docs t2).by_type
    ∧ (generate_registry docs t1).by_status = (generate_registry docs t2).by_status
    ∧ (generate_registry docs t1).docs = (generate_registry docs t2).docs
    ∧ (generate_registry docs t1).generated_at = t1 :=
  ⟨rfl, rfl, rfl, rfl⟩

/-- C6 (corrected): each record of the registry's docs array carries as its
`path` field the document's collected path — the documentation root joined
with the relative path — rather than the bare root-relative path.
(Hypothesis: no document's front matter uses the reserved key `path`, which
would overwrite the record's entry.) -/
theorem C6_registry_path (parse : String → Option (List (String × PyVal)))
    (sha256Fn : String → String) (sh : Bool) (simhashFn : String → Nat)
    (docs_dir : String) (files : List RawFile) (excl : List String) (now : String)
    (hres : ∀ d ∈ collect_documents parse sha256Fn sh simhashFn docs_dir files excl,
      fmLookup d.front_matter "path" = Option.none) :
    ((generate_registry
        (collect_documents parse sha256Fn sh simhashFn docs_dir files excl) now).docs.map
          (fun e => fmLookup e "path"))
      = (collect_documents parse sha256Fn sh simhashFn docs_dir files excl).map
          (fun d => some (PyVal.str d.path))
    ∧ ∀ d ∈ collect_documents parse sha256Fn sh simhashFn docs_dir files excl,
        ∃ f ∈ files, d.path = docs_dir ++ "/" ++ f.rel_path := by
  constructor
  · show ((collect_documents parse sha256Fn sh simhashFn docs_dir files excl).map
        docEntry).map (fun e => fmLookup e "path") = _
    rw [List.map_map]
    exact List.map_congr_left (fun d hd => docEntry_path d (hres d hd))
  · intro d hd
    obtain ⟨f, hf, hc⟩ := List.mem_filterMap.mp hd
    exact ⟨f, hf, collectOne_path _ _ _ _ _ _ _ _ hc⟩

/-- Witness for C6 (amended): one concrete file under root `docs`. -/
theorem C6_registry_path_witness :
    (∀ d ∈ collect_documents parse0 sha0 false sim0 "docs" [fileA] ["index/", "archive/"],
      fmLookup d.front_matter "path" = Option.none)
    ∧ (((generate_registry
          (collect_documents parse0 sha0 false sim0 "docs" [fileA] ["index/", "archive/"])
          "t").docs.map (fun e => fmLookup e "path"))
        = (collect_documents parse0 sha0 false sim0 "docs" [fileA] ["index/", "archive/"]).map
            (fun d => some (PyVal.str d.path))
       ∧ ∀ d ∈ collect_documents parse0 sha0 false sim0 "docs" [fileA] ["index/", "archive/"],
          ∃ f ∈ [fileA], d.path = "docs" ++ "/" ++ f.rel_path) :=
  ⟨by decide, C6_registry_path parse0 sha0 false sim0 "docs" [fileA]
    ["index/", "archive/"] "t" (by decide)⟩

/-- Counterexample to C6 as stated: the collected file has root-relative
path `a.md`, but the registry record's `path` field is `docs/a.md` — the
root-joined traversal path, not the relative one. -/
theorem C6_counterexample :
    fileA.rel_path = "a.md"
    ∧ (collect_documents parse0 sha0 false sim0 "docs" [fileA]
        ["index/", "archive/"]).map DocumentInfo.path = ["docs/a.md"]
    ∧ ((generate_registry
          (collect_documents parse0 sha0 false sim0 "docs" [fileA] ["index/", "archive/"])
          "t").docs.map (fun e => fmLookup e "path")) = [some (PyVal.str "docs/a.md")]
    ∧ ("docs/a.md" : String) ≠ "a.md" :=
  ⟨by decide, by decide, by decide, by decide⟩

/-- C7 (corrected): the collector emits documents in traversal order — the
order of the underlying `rglob` walk, with ineligible files dropped — and
the registry's docs array preserves that collector order record-for-record;
no sorting by path is performed anywhere. -/
theorem C7_collector_order (parse : String → Option (List (String × PyVal)))
    (sha256Fn : String → String) (sh : Bool) (simhashFn : String → Nat)
    (docs_dir : String) (files : List RawFile) (excl : List String)
    (docs : List DocumentInfo) (now : String) :
    (collect_documents parse sha256Fn sh simhashFn docs_dir files excl).map
        DocumentInfo.path
      = (files.filter (fun f =>
          (collectOne parse sha256Fn sh simhashFn docs_dir excl f).isSome)).map
          (fun f => docs_dir ++ "/" ++ f.rel_path)
    ∧ (generate_registry docs now).docs = docs.map docEntry :=
  ⟨collect_map_path parse sha256Fn sh simhashFn docs_dir files excl, rfl⟩

/-- Counterexample to C7 as stated: a traversal that yields `b.md` before
`a.md` produces a collector output that is not sorted by path — the
collector never sorts — and the registry preserves that unsorted order. -/
theorem C7_counterexample :
    (collect_documents parse0 sha0 false sim0 "docs" [fileB, fileA]
        ["index/", "archive/"]).map DocumentInfo.path = ["docs/b.md", "docs/a.md"]
    ∧ sortedByPathB ((collect_documents parse0 sha0 false sim0 "docs" [fileB, fileA]
        ["index/", "archive/"]).map DocumentInfo.path) = false
    ∧ ((generate_registry
          (collect_documents parse0 sha0 false sim0 "docs" [fileB, fileA]
            ["index/", "archive/"]) "t").docs.map (fun e => fmLookup e "path"))
        = [some (PyVal.str "docs/b.md"), some (PyVal.str "docs/a.md")] :=
  ⟨by decide, by decide, by decide⟩

theorem check_canonical_mem_path (docs : List DocumentInfo) (e : ValidationError)
    (he : e ∈ check_canonical_uniqueness docs) :
    e.path ∈ docs.map DocumentInfo.path := by
  obtain ⟨g, hg, hsome⟩ := List.mem_filterMap.mp he
  obtain ⟨k2, ps2⟩ := g
  obtain ⟨hl, rfl⟩ := groupError_eq_some _ e hsome
  have hlook := lookupG_of_mem _ _ _ (nodup_keysOf_canonicalGroups docs) hg
  rw [lookupG_canonicalGroups] at hlook
  simp only at hl ⊢
  cases hps : ps2 with
  | nil => rw [hps] at hl; simp at hl
  | cons p rest =>
    rw [List.headD_cons]
    have hmem : p ∈ collidePaths docs k2 := by
      rw [hlook, hps]
      exact List.mem_cons_self p rest
    rw [collidePaths] at hmem
    obtain ⟨d, hd, rfl⟩ := List.mem_map.mp hmem
    exact List.mem_map_of_mem DocumentInfo.path (List.mem_of_mem_filter hd)

theorem runAllWarnings_warning (sh rf : Bool) (ratioFn : String → String → Nat)
    (documents : List DocumentInfo) :
    ∀ e ∈ runAllWarnings sh rf ratioFn documents, e.is_warning = true := by
  intro e he
  rw [runAllWarnings] at he
  rcases List.mem_append.mp he with h | h
  · rcases List.mem_append.mp h with h2 | h2
    · exact (List.mem_filter.mp h2).2
    · exact (List.mem_filter.mp h2).2
  · exact detect_all_warnings sh rf ratioFn documents 8 80 e h

theorem runAllErrors_error (documents : List DocumentInfo) :
    ∀ e ∈ runAllErrors documents, e.is_warning = false := by
  intro e he
  rw [runAllErrors] at he
  rcases List.mem_append.mp he with h | h
  · simpa using (List.mem_filter.mp h).2
  · simpa using (List.mem_filter.mp h).2

theorem runAllErrors_path (documents : List DocumentInfo) :
    ∀ e ∈ runAllErrors documents, e.path ∈ documents.map DocumentInfo.path := by
  intro e he
  rw [runAllErrors] at he
  rcases List.mem_append.mp he with h | h
  · obtain ⟨d, hd, hv⟩ := List.mem_flatMap.mp (List.mem_of_mem_filter h)
    rw [(validate_mem _ _ _ e hv).1]
    exact List.mem_map_of_mem DocumentInfo.path hd
  · exact check_canonical_mem_path documents e (List.mem_of_mem_filter h)

theorem runAllWarnings_path (sh rf : Bool) (ratioFn : String → String → Nat)
    (documents : List DocumentInfo) :
    ∀ e ∈ runAllWarnings sh rf ratioFn documents,
      e.path = "(system)" ∨ e.path ∈ documents.map DocumentInfo.path := by
  intro e he
  rw [runAllWarnings] at he
  rcases List.mem_append.mp he with h | h
  · rcases List.mem_append.mp h with h2 | h2
    · obtain ⟨d, hd, hv⟩ := List.mem_flatMap.mp (List.mem_of_mem_filter h2)
      rw [(validate_mem _ _ _ e hv).1]
      exact Or.inr (List.mem_map_of_mem DocumentInfo.path hd)
    · exact Or.inr (check_canonical_mem_path documents e (List.mem_of_mem_filter h2))
  · exact detect_mem_path sh rf ratioFn documents 8 80 e h

/-- C1 (confirmed): in a non-pre-commit run, the registry is written if and
only if no error-severity Finding exists among all Findings of the run;
when it is not written the registry on disk is exactly the pre-existing
one, and warnings — which are all the detector and warning-stream entries
are — never block the write. -/
theorem C1_registry_gate (parse : String → Option (List (String × PyVal)))
    (sha256Fn : String → String) (simhashFn : String → Nat)
    (ratioFn : String → String → Nat) (sh rf : Bool) (docs_dir : String)
    (files : List RawFile) (now : String) (disk0 : Option Registry) :
    let R := mainRun parse sha256Fn simhashFn ratioFn sh rf docs_dir files false now disk0
    (R.registry_written = true ↔
      ((R.all_errors ++ R.all_warnings).filter (fun e => !e.is_warning)) = [])
    ∧ (R.registry_written = false → R.registry_on_disk = disk0)
    ∧ (R.registry_written = true →
        R.registry_on_disk = some (generate_registry R.documents now))
    ∧ (∀ e ∈ R.all_warnings, e.is_warning = true)
    ∧ (∀ e ∈ R.all_errors, e.is_warning = false) := by
  intro R
  have hdocs : R.documents = collect_documents parse sha256Fn sh simhashFn
      docs_dir files ["index/", "archive/"] := rfl
  have herr : R.all_errors = runAllErrors R.documents := rfl
  have hwarn : R.all_warnings = runAllWarnings sh rf ratioFn R.documents := rfl
  have hwrit : R.registry_written = R.all_errors.isEmpty := by
    show (!false && (runAllErrors R.documents).isEmpty) = _
    rw [herr]
    simp
  have hE := runAllErrors_error R.documents
  have hW := runAllWarnings_warning sh rf ratioFn R.documents
  have hfilter : (R.all_errors ++ R.all_warnings).filter (fun e => !e.is_warning)
      = R.all_errors := by
    rw [List.filter_append]
    rw [List.filter_eq_self.mpr (fun e he => by rw [herr] at he; simp [hE e he])]
    rw [List.filter_eq_nil_iff.mpr (fun e he => by rw [hwarn] at he; simp [hW e he])]
    exact List.append_nil _
  refine ⟨?_, ?_, ?_, fun e he => hW e (hwarn ▸ he), fun e he => hE e (herr ▸ he)⟩
  · rw [hfilter, hwrit]
    exact List.isEmpty_iff
  · intro h
    show (if !false && (runAllErrors R.documents).isEmpty then _ else disk0) = disk0
    rw [if_neg]
    intro hc
    rw [hwrit] at h
    have : (runAllErrors R.documents).isEmpty = true := by simpa using hc
    rw [herr] at h
    rw [this] at h
    cases h
  · intro h
    show (if !false && (runAllErrors R.documents).isEmpty then
        some (generate_registry (collect_documents parse sha256Fn sh simhashFn
          docs_dir files ["index/", "archive/"]) now) else disk0) = _
    rw [if_pos]
    · rfl
    · rw [hwrit, herr] at h
      simpa using h

/-- Witness for C1: a run whose only document misses required fields leaves
the pre-existing registry untouched; a fully valid run writes the fresh
registry. -/
theorem C1_registry_gate_witness :
    ((mainRun parse0 sha0 sim0 ratio90 false false "docs" [fileA] false "t"
        (some regPrev)).registry_written = false
     ∧ (mainRun parse0 sha0 sim0 ratio90 false false "docs" [fileA] false "t"
        (some regPrev)).registry_on_disk = some regPrev)
    ∧ ((mainRun parse1 sha0 sim0 ratio90 false false "docs" [fileA] false "t"
        (some regPrev)).registry_written = true
     ∧ (mainRun parse1 sha0 sim0 ratio90 false false "docs" [fileA] false "t"
        (some regPrev)).registry_on_disk
         = some (generate_registry (mainRun parse1 sha0 sim0 ratio90 false false "docs"
             [fileA] false "t" (some regPrev)).documents "t")) :=
  ⟨⟨by decide,
    (C1_registry_gate parse0 sha0 sim0 ratio90 false false "docs" [fileA] "t"
      (some regPrev)).2.1 (by decide)⟩,
   ⟨by decide,
    (C1_registry_gate parse1 sha0 sim0 ratio90 false false "docs" [fileA] "t"
      (some regPrev)).2.2.1 (by decide)⟩⟩

theorem extract_none_of_bad (parse : String → Option (List (String × PyVal)))
    (c : String) (h : hasFrontMatterDelims c = false) :
    extract_front_matter parse c = (Option.none, c) := by
  rw [hasFrontMatterDelims] at h
  rw [extract_front_matter]
  by_cases h1 : listStartsWith c.data "---".data
  · rw [h1] at h
    simp only [Bool.true_and, decide_eq_false_iff_not, not_le] at h
    rw [if_neg (by simp [h1])]
    rw [if_pos h]
  · rw [if_pos (by simp [h1])]

theorem collectOne_none_of_bad (parse : String → Option (List (String × PyVal)))
    (sha256Fn : String → String) (sh : Bool) (simhashFn : String → Nat)
    (docs_dir : String) (excl : List String) (f : RawFile)
    (hbad : hasFrontMatterDelims f.content = false) :
    collectOne parse sha256Fn sh simhashFn docs_dir excl f = Option.none := by
  rw [collectOne, extract_none_of_bad parse f.content hbad]
  split
  · rfl
  · split
    · rfl
    · rfl

/-- C4 (confirmed): a file whose content lacks the two front-matter
delimiters is never collected, is mentioned by no Finding of the run, and
appears in no record of the registry built from the run's documents.
(Hypotheses: the file's relative path is not duplicated in the traversal,
and no front matter uses the reserved key `path`.) -/
theorem C4_no_front_matter_excluded (parse : String → Option (List (String × PyVal)))
    (sha256Fn : String → String) (simhashFn : String → Nat)
    (ratioFn : String → String → Nat) (sh rf : Bool) (docs_dir : String)
    (files : List RawFile) (preCommit : Bool) (now : String)
    (disk0 : Option Registry) (f : RawFile) (_hf : f ∈ files)
    (huniq : ∀ g ∈ files, g.rel_path = f.rel_path → g = f)
    (hbad : hasFrontMatterDelims f.content = false)
    (hres : ∀ d ∈ (mainRun parse sha256Fn simhashFn ratioFn sh rf docs_dir files
        preCommit now disk0).documents,
      fmLookup d.front_matter "path" = Option.none) :
    let R := mainRun parse sha256Fn simhashFn ratioFn sh rf docs_dir files
      preCommit now disk0
    (docs_dir ++ "/" ++ f.rel_path) ∉ R.documents.map DocumentInfo.path
    ∧ (∀ e ∈ R.all_errors ++ R.all_warnings, e.path ≠ docs_dir ++ "/" ++ f.rel_path)
    ∧ (∀ entry ∈ (generate_registry R.documents now).docs,
        fmLookup entry "path" ≠ some (PyVal.str (docs_dir ++ "/" ++ f.rel_path))) := by
  intro R
  have hnc : (docs_dir ++ "/" ++ f.rel_path) ∉ R.documents.map DocumentInfo.path := by
    intro hmem
    obtain ⟨d, hd, hdp⟩ := List.mem_map.mp hmem
    obtain ⟨g, hg, hcg⟩ := List.mem_filterMap.mp hd
    have hp := collectOne_path _ _ _ _ _ _ _ _ hcg
    have heq : docs_dir ++ "/" ++ g.rel_path = docs_dir ++ "/" ++ f.rel_path := by
      rw [← hp, hdp]
    have hrel : g.rel_path = f.rel_path := by
      apply String.ext
      have h2 := congrArg String.data heq
      rw [String.data_append, String.data_append, String.data_append,
        String.data_append] at h2
      exact List.append_cancel_left h2
    rw [huniq g hg hrel] at hcg
    rw [collectOne_none_of_bad parse sha256Fn sh simhashFn docs_dir
      ["index/", "archive/"] f hbad] at hcg
    cases hcg
  have hslash : ('/' : Char) ∈ (docs_dir ++ "/" ++ f.rel_path).data := by
    rw [String.data_append, String.data_append]
    exact List.mem_append.mpr (Or.inl (List.mem_append.mpr (Or.inr (by decide))))
  have hsys : (docs_dir ++ "/" ++ f.rel_path) ≠ "(system)" := by
    intro h
    rw [h] at hslash
    exact absurd hslash (by decide)
  refine ⟨hnc, ?_, ?_⟩
  · intro e he hep
    rcases List.mem_append.mp he with h | h
    · have hmem := runAllErrors_path R.documents e h
      rw [hep] at hmem
      exact hnc hmem
    · rcases runAllWarnings_path sh rf ratioFn R.documents e h with h2 | h2
      · rw [hep] at h2
        exact hsys h2
      · rw [hep] at h2
        exact hnc h2
  · intro entry hent hlk
    obtain ⟨d, hd, rfl⟩ := List.mem_map.mp hent
    rw [docEntry_path d (hres d hd)] at hlk
    simp only [Option.some.injEq, PyVal.str.injEq] at hlk
    exact hnc (hlk ▸ List.mem_map_of_mem DocumentInfo.path hd)

/-- Witness for C4: a run over one well-formed file and one delimiter-less
file; the latter is absent from documents, Findings and registry. -/
theorem C4_no_front_matter_excluded_witness :
    fileNoFm ∈ [fileA, fileNoFm]
    ∧ (∀ g ∈ [fileA, fileNoFm], g.rel_path = fileNoFm.rel_path → g = fileNoFm)
    ∧ hasFrontMatterDelims fileNoFm.content = false
    ∧ (∀ d ∈ (mainRun parse1 sha0 sim0 ratio90 false false "docs" [fileA, fileNoFm]
        false "t" Option.none).documents,
      fmLookup d.front_matter "path" = Option.none)
    ∧ (("docs" ++ "/" ++ fileNoFm.rel_path)
        ∉ (mainRun parse1 sha0 sim0 ratio90 false false "docs" [fileA, fileNoFm]
            false "t" Option.none).documents.map DocumentInfo.path
      ∧ (∀ e ∈ (mainRun parse1 sha0 sim0 ratio90 false false "docs" [fileA, fileNoFm]
            false "t" Option.none).all_errors ++
          (mainRun parse1 sha0 sim0 ratio90 false false "docs" [fileA, fileNoFm]
            false "t" Option.none).all_warnings,
          e.path ≠ "docs" ++ "/" ++ fileNoFm.rel_path)
      ∧ (∀ entry ∈ (generate_registry (mainRun parse1 sha0 sim0 ratio90 false false
            "docs" [fileA, fileNoFm] false "t" Option.none).documents "t").docs,
          fmLookup entry "path"
            ≠ some (PyVal.str ("docs" ++ "/" ++ fileNoFm.rel_path)))) :=
  ⟨List.mem_cons_of_mem fileA (List.mem_cons_self fileNoFm []),
   by decide, by decide, by decide,
   C4_no_front_matter_excluded parse1 sha0 sim0 ratio90 false false "docs"
     [fileA, fileNoFm] false "t" Option.none fileNoFm
     (List.mem_cons_of_mem fileA (List.mem_cons_self fileNoFm []))
     (by decide) (by decide) (by decide)⟩
